import Mathlib

/-!
AventurOO tiered storage: verification of the resolver, the record merge,
the canonical-location derivation, the dedup store, listing pagination and
the critical-index check.

A shallow embedding of the read-path (tiered resolver), record merge,
canonical-URL derivation, ingestion dedup store, listing pagination and the
post-rotation critical-index verification of the AventurOO repository.
JavaScript strings become Lean `String`s (the empty string plays the role of
a JS falsy string), JSON objects become structures with `""`/`none` defaults,
and the network layer becomes explicit functions from request arguments to
`Option` payloads, where `none` models a rejected fetch.
-/

namespace Aventuroo

/-! ## JavaScript string primitives -/

/-- ASCII whitespace recognised by `String.prototype.trim` on the inputs
exercised here (Unicode whitespace beyond ASCII is not modelled). -/
def isJsWhitespace (c : Char) : Bool :=
  c = ' ' || c = '\t' || c = '\n' || c = '\r' || c = '\x0b' || c = '\x0c'

/-- JS `String.prototype.trim`. -/
def jsTrim (s : String) : String :=
  String.mk (((s.toList.dropWhile isJsWhitespace).reverse.dropWhile isJsWhitespace).reverse)

/-- JS `String.prototype.toLowerCase` restricted to ASCII letters. -/
def jsLower (s : String) : String :=
  String.mk (s.toList.map Char.toLower)

/-- JS `a || b` on strings: the empty string is falsy. -/
def jsOr (a b : String) : String :=
  if a = "" then b else a

/-- JS `String.prototype.split` with a one-character separator (the only
shape of separator the sources use). -/
def splitOnCharGo (sep : Char) : List Char → List Char → List String
  | [], acc => [String.mk acc.reverse]
  | c :: rest, acc =>
    if c = sep then String.mk acc.reverse :: splitOnCharGo sep rest []
    else splitOnCharGo sep rest (c :: acc)

def splitOnChar (sep : Char) (s : String) : List String :=
  splitOnCharGo sep s.toList []

/-- JS `String.prototype.endsWith`. -/
def strEndsWith (s t : String) : Bool :=
  let ls := s.toList
  let lt := t.toList
  lt.length ≤ ls.length && ls.drop (ls.length - lt.length) = lt

/-- JS `String.prototype.startsWith`. -/
def strStartsWith (s t : String) : Bool :=
  s.toList.take t.toList.length = t.toList

def strTakeWhile (p : Char → Bool) (s : String) : String :=
  String.mk (s.toList.takeWhile p)

/-- JS `String.prototype.indexOf(c) !== -1` for a single character. -/
def strContains (s : String) (c : Char) : Bool :=
  s.toList.contains c

def strAll (p : Char → Bool) (s : String) : Bool :=
  s.toList.all p

/-- Decimal parsing of an all-digit string (`parseInt(s, 10)` after a
digits-only guard). -/
def strToNat? (s : String) : Option Nat :=
  if s.toList ≠ [] ∧ s.toList.all Char.isDigit then
    some (s.toList.foldl (fun acc c => acc * 10 + (c.toNat - 48)) 0)
  else none

/-- `.replace(/&/g, 'and')`. -/
def replaceAmp (s : String) : String :=
  String.join (s.toList.map (fun c => if c = '&' then "and" else String.mk [c]))

/-- ASCII alphanumeric: the complement of the JS character class `[_\W]`,
i.e. of `[^A-Za-z0-9]`. -/
def isJsAlnum (c : Char) : Bool :=
  ('a' ≤ c && c ≤ 'z') || ('A' ≤ c && c ≤ 'Z') || ('0' ≤ c && c ≤ '9')

/-- One pass of `.replace(/[_\W]+/g, '-')`: each maximal run of
non-alphanumeric characters becomes a single hyphen.  The boolean tracks
whether the previous character was part of such a run. -/
def collapseNonAlnumGo : Bool → List Char → List Char
  | _, [] => []
  | inRun, c :: rest =>
    if isJsAlnum c then c :: collapseNonAlnumGo false rest
    else if inRun then collapseNonAlnumGo true rest
    else '-' :: collapseNonAlnumGo true rest

def collapseNonAlnum (s : String) : String :=
  String.mk (collapseNonAlnumGo false s.toList)

/-- `.replace(/^-+|-+$/g, '')`. -/
def trimHyphens (s : String) : String :=
  String.mk (((s.toList.dropWhile (· = '-')).reverse.dropWhile (· = '-')).reverse)

/-- `.replace(/\.html?$/i, '')`, applied after lowercasing so the
case-insensitive flag is moot. -/
def stripHtmlSuffix (s : String) : String :=
  if strEndsWith s ".html" then s.dropRight 5
  else if strEndsWith s ".htm" then s.dropRight 4
  else s

/-- `slugify` as defined identically in `part_008`, `part_009` and
`category.js`: trim, lowercase, strip an `.htm`/`.html` suffix, rewrite `&`
to `and`, collapse runs of non-alphanumerics to `-`, strip outer hyphens. -/
def slugify (value : String) : String :=
  trimHyphens (collapseNonAlnum (replaceAmp (stripHtmlSuffix (jsLower (jsTrim value)))))

/-- `padNumber(value, length)` on the natural-number inputs it receives:
decimal rendering left-padded with zeros. -/
def padNumber (n : Nat) (len : Nat) : String :=
  let s := toString n
  String.mk (List.replicate (len - s.length) '0') ++ s

theorem dropWhile_length_le (p : Char → Bool) (l : List Char) :
    (l.dropWhile p).length ≤ l.length := by
  induction l with
  | nil => simp [List.dropWhile]
  | cons c rest ih =>
    simp only [List.dropWhile]
    cases p c
    · simp
    · simpa using Nat.le_succ_of_le ih

set_option linter.unusedVariables false in
/-- `stripHtml`: `.replace(/<[^>]*>/g, ' ')`.  A `<` without a closing `>`
does not match the regex and is kept verbatim. -/
def stripHtmlGo : List Char → List Char
  | [] => []
  | c :: rest =>
    if c = '<' then
      match h : rest.dropWhile (· ≠ '>') with
      | [] => c :: rest
      | _ :: after => ' ' :: stripHtmlGo after
    else c :: stripHtmlGo rest
termination_by l => l.length
decreasing_by
  · have h1 := dropWhile_length_le (fun x => decide (x ≠ '>')) rest
    rw [h] at h1
    simp only [List.length_cons] at h1 ⊢
    omega
  · simp

def stripHtml (s : String) : String :=
  String.mk (stripHtmlGo s.toList)

/-! ## Data model

A post record as the JSON payloads carry it.  Absent JSON fields read as
`undefined` in JS, which behaves like the empty string everywhere the code
consumes them through `||`-chains and truthiness tests, so every field
defaults to `""`. -/

structure Post where
  id : String := ""
  slug : String := ""
  title : String := ""
  excerpt : String := ""
  summary : String := ""
  description : String := ""
  body : String := ""
  content : String := ""
  html : String := ""
  content_html : String := ""
  body_html : String := ""
  summary_html : String := ""
  cover : String := ""
  image : String := ""
  category : String := ""
  subcategory : String := ""
  category_slug : String := ""
  date : String := ""
  published_at : String := ""
  created_at : String := ""
  updated_at : String := ""
  pubDate : String := ""
  published : String := ""
  datetime : String := ""
  source : String := ""
  source_name : String := ""
  source_domain : String := ""
  author : String := ""
  rights : String := ""
  canonical : String := ""
  archive_url : String := ""
  url : String := ""
  link : String := ""
  permalink : String := ""
  guid : String := ""
deriving DecidableEq, Repr

/-- A `(parent, child)` taxonomy scope.  The JS code passes scope objects
that always exist, so the `!scope` branches of the source are not modelled. -/
structure Scope where
  parent : String
  child : String
deriving DecidableEq, Repr

/-! ## Scope resolution on posts (identical in `part_008` and `part_009`) -/

/-- `getPostParentSlug` of `part_008`/`part_009` (and `category.js`). -/
def getPostParentSlug (post : Post) : String :=
  let fromCategory :=
    if post.category ≠ "" ∧ slugify post.category ≠ "" then slugify post.category else ""
  if post.category_slug ≠ "" then
    let parts := splitOnChar '/' post.category_slug
    let fromParts := if parts.length > 1 then slugify (parts.headD "") else ""
    if fromParts ≠ "" then fromParts
    else
      let normalizedAll := slugify post.category_slug
      let maybeParent :=
        if normalizedAll ≠ "" ∧ strContains normalizedAll '-' then
          (splitOnChar '-' normalizedAll).headD ""
        else ""
      if maybeParent ≠ "" then maybeParent else fromCategory
  else fromCategory

/-- `getPostChildSlug` of `part_008`/`part_009` (and `category.js`). -/
def getPostChildSlug (post : Post) : String :=
  let fromSubcategory :=
    if post.subcategory ≠ "" ∧ slugify post.subcategory ≠ "" then slugify post.subcategory else ""
  if post.category_slug ≠ "" then
    let parts := splitOnChar '/' post.category_slug
    let fromParts := if parts.length > 1 then slugify (parts.getLastD "") else ""
    if fromParts ≠ "" then fromParts else fromSubcategory
  else fromSubcategory

/-- `matchesScope` as defined identically in `part_008` and `part_009`. -/
def matchesScope (post : Post) (scope : Scope) : Bool :=
  let parent := jsOr scope.parent "index"
  let child := jsOr scope.child "index"
  if parent = "index" ∧ child = "index" then true
  else if child ≠ "index" then
    let childSlug := getPostChildSlug post
    childSlug ≠ "" ∧ childSlug = child
  else if parent = "" ∨ parent = "index" then true
  else
    let parentSlug := getPostParentSlug post
    parentSlug ≠ "" ∧ parentSlug = parent

def filterPostsByScope (posts : List Post) (scope : Scope) : List Post :=
  posts.filter (fun post => matchesScope post scope)

/-- `findPostBySlug` of `part_008`/`part_009`. -/
def findPostBySlug (posts : List Post) (slugValue : String) : Option Post :=
  let normalized := slugify slugValue
  if normalized = "" then none
  else posts.find? (fun post =>
    (post.slug ≠ "" ∧ slugify post.slug = normalized) ∨
    (post.slug = "" ∧ post.title ≠ "" ∧ slugify post.title = normalized))

/-! ## Summary and manifest documents -/

/-- One `{year, month, ...}` entry of a summary month list; `none` models a
JSON `null`/absent field (`year == null` checks in the source). -/
structure MonthInfo where
  year : Option Nat := none
  month : Option Nat := none
deriving DecidableEq, Repr

structure ChildSummary where
  child : String := ""
  slug : String := ""
  months : Option (List MonthInfo) := none
  items : Option Int := none
deriving DecidableEq, Repr

structure ParentSummary where
  parent : String := ""
  slug : String := ""
  children : Option (List ChildSummary) := none
deriving DecidableEq, Repr

/-- A summary document (`summary.json`); `per_page` is only consumed by
`category.js`. -/
structure Summary where
  per_page : Option Int := none
  parents : Option (List ParentSummary) := none
deriving DecidableEq, Repr

structure ManifestShard where
  parent : String := ""
  child : String := ""
  year : Option Nat := none
  month : Option Nat := none
deriving DecidableEq, Repr

structure Manifest where
  shards : Option (List ManifestShard) := none
deriving DecidableEq, Repr

/-- `findParentSummary` (identical in `part_008` and `category.js`); a
missing or failed summary document reads as `none`. -/
def findParentSummary (summary : Option Summary) (parent : String) : Option ParentSummary :=
  match summary with
  | none => none
  | some s =>
    let parents := s.parents.getD []
    let normalized := slugify parent
    parents.find? (fun entry => slugify (jsOr entry.parent entry.slug) = normalized)

/-- `findChildSummary` (identical in `part_008` and `category.js`). -/
def findChildSummary (summary : Option Summary) (parent child : String) : Option ChildSummary :=
  match findParentSummary summary parent with
  | none => none
  | some parentEntry =>
    match parentEntry.children with
    | none => none
    | some children =>
      let normalized := if child = "index" ∨ child = "" then "index" else slugify child
      children.find? (fun entry =>
        (if entry.child = "index" then "index" else slugify (jsOr entry.child entry.slug)) = normalized)

/-! ## The `part_008` article resolver

The network layer is abstracted into a `World`: each field maps the
arguments of a fetch helper to the value its promise resolves to, with
`none` for a rejected fetch.  Shard entries stand for the already
post-processed payload (`normalizePostsPayload` → `sortPostsByDate` →
`dedupePosts` applied by `fetchHotShard`/`fetchArchiveShard`), and
`legacyPosts` likewise for the processed `posts.json` payload.  For the
summary and the manifests the code maps fetch failures to `null`, so
`none` covers both a failure and a missing document. -/

structure World where
  hotShard : String → String → Option (List Post)
  archiveShard : String → String → Nat → Nat → Option (List Post)
  archiveSummary : Option Summary
  archiveManifest : Option Manifest
  hotManifest : Option Manifest
  legacyPosts : Option (List Post)

inductive Tier
  | hot
  | archive
  | legacy
deriving DecidableEq, Repr

/-- The archive context objects (`{origin, parent, child, year, month,
slug}`) the `part_008` code passes around. -/
structure ArchiveContext where
  origin : String := ""
  parent : String := ""
  child : String := ""
  year : Option Nat := none
  month : Option Nat := none
  slug : String := ""
deriving DecidableEq, Repr

structure LookupResult where
  post : Post
  posts : List Post
  source : Tier
  context : Option ArchiveContext := none
  scope : Option Scope := none
deriving DecidableEq, Repr

/-- The `ARCHIVE_ORIGIN` default (`window` and `data-archive-origin`
overrides are not modelled). -/
def ARCHIVE_ORIGIN : String := "https://archive.aventuroo.com"

namespace Part008

/-- The attempted-shard keys (`parent::child::yyyymm`) built by
`searchArchiveByMonths`, `searchArchiveViaManifest` and
`ensureArchiveFromHot`. -/
def monthKey (parent child : String) (year month : Nat) : String :=
  jsOr parent "index" ++ "::" ++ jsOr child "index" ++ "::" ++ padNumber year 4 ++ padNumber month 2

abbrev Attempted := List String

/-- `searchArchiveByMonths` of `part_008`.  Returns the result, the updated
`attempted` set, and the chronological list of shards actually fetched
(their cache keys). -/
def searchArchiveByMonths (w : World) (scope : Scope) (months : List MonthInfo)
    (slugValue : String) (attempted : Attempted) :
    Option LookupResult × Attempted × List String :=
  match months with
  | [] => (none, attempted, [])
  | info :: rest =>
    match info.year, info.month with
    | some year, some month =>
      let key := monthKey scope.parent scope.child year month
      if attempted.contains key then
        searchArchiveByMonths w scope rest slugValue attempted
      else
        let attempted' := key :: attempted
        match w.archiveShard scope.parent scope.child year month with
        | none =>
          let (r, a, log) := searchArchiveByMonths w scope rest slugValue attempted'
          (r, a, key :: log)
        | some items =>
          match findPostBySlug items slugValue with
          | some post =>
            (some { post := post, posts := items, source := .archive,
                    context := some { parent := jsOr scope.parent "index",
                                      child := jsOr scope.child "index",
                                      year := some year, month := some month } },
             attempted', [key])
          | none =>
            let (r, a, log) := searchArchiveByMonths w scope rest slugValue attempted'
            (r, a, key :: log)
    | _, _ => searchArchiveByMonths w scope rest slugValue attempted

/-- The inner `next()` loop of `searchArchiveViaManifest`; the source walks
`manifest.shards` from the last entry to the first, so it receives the
reversed shard list. -/
def searchManifestShards (w : World) (shards : List ManifestShard)
    (slugValue : String) (attempted : Attempted) :
    Option LookupResult × Attempted × List String :=
  match shards with
  | [] => (none, attempted, [])
  | entry :: rest =>
    let parent := jsOr entry.parent "index"
    let child := jsOr entry.child "index"
    match entry.year, entry.month with
    | some year, some month =>
      let key := parent ++ "::" ++ child ++ "::" ++ padNumber year 4 ++ padNumber month 2
      if attempted.contains key then
        searchManifestShards w rest slugValue attempted
      else
        let attempted' := key :: attempted
        match w.archiveShard parent child year month with
        | none =>
          let (r, a, log) := searchManifestShards w rest slugValue attempted'
          (r, a, key :: log)
        | some items =>
          match findPostBySlug items slugValue with
          | some post =>
            (some { post := post, posts := items, source := .archive,
                    context := some { parent := parent, child := child,
                                      year := some year, month := some month } },
             attempted', [key])
          | none =>
            let (r, a, log) := searchManifestShards w rest slugValue attempted'
            (r, a, key :: log)
    | _, _ => searchManifestShards w rest slugValue attempted

/-- `searchArchiveViaManifest` of `part_008`. -/
def searchArchiveViaManifest (w : World) (slugValue : String) (attempted : Attempted) :
    Option LookupResult × Attempted × List String :=
  match w.archiveManifest with
  | none => (none, attempted, [])
  | some manifest =>
    match manifest.shards with
    | none => (none, attempted, [])
    | some shards =>
      if shards.isEmpty then (none, attempted, [])
      else searchManifestShards w shards.reverse slugValue attempted

/-- The month list `loadArchivePost` extracts from the archive summary for
the scope. -/
def summaryMonths (w : World) (scope : Scope) : List MonthInfo :=
  match findChildSummary w.archiveSummary scope.parent scope.child with
  | some childEntry => childEntry.months.getD []
  | none => []

/-- `loadArchivePost` of `part_008`. -/
def loadArchivePost (w : World) (slugValue : String) (scope : Scope) (attempted : Attempted) :
    Option LookupResult × Attempted × List String :=
  let months := summaryMonths w scope
  if months.isEmpty then searchArchiveViaManifest w slugValue attempted
  else
    match searchArchiveByMonths w scope months slugValue attempted with
    | (some result, a, log) => (some result, a, log)
    | (none, a, log) =>
      let (r2, a2, log2) := searchArchiveViaManifest w slugValue a
      (r2, a2, log ++ log2)

/-- `searchHotShard` of `part_008`: a fetch failure is caught and becomes a
miss (`null`). -/
def searchHotShard (w : World) (scope : Scope) (slugValue : String) : Option LookupResult :=
  match w.hotShard scope.parent scope.child with
  | none => none
  | some items =>
    let filtered := filterPostsByScope items scope
    match findPostBySlug filtered slugValue with
    | none => none
    | some post => some { post := post, posts := filtered, source := .hot, scope := some scope }

/-- The inner `next()` loop of `searchHotViaManifest` (reversed shard
list, see `searchManifestShards`). -/
def searchHotManifestShards (w : World) (shards : List ManifestShard)
    (slugValue : String) : Option LookupResult :=
  match shards with
  | [] => none
  | entry :: rest =>
    let parent := jsOr entry.parent "index"
    let child := jsOr entry.child "index"
    match w.hotShard parent child with
    | none => searchHotManifestShards w rest slugValue
    | some items =>
      let filtered := filterPostsByScope items ⟨parent, child⟩
      match findPostBySlug filtered slugValue with
      | some post =>
        some { post := post, posts := filtered, source := .hot, scope := some ⟨parent, child⟩ }
      | none => searchHotManifestShards w rest slugValue

/-- `searchHotViaManifest` of `part_008`. -/
def searchHotViaManifest (w : World) (slugValue : String) : Option LookupResult :=
  match w.hotManifest with
  | none => none
  | some manifest =>
    match manifest.shards with
    | none => none
    | some shards =>
      if shards.isEmpty then none
      else searchHotManifestShards w shards.reverse slugValue

/-- `loadHotPost` of `part_008`. -/
def loadHotPost (w : World) (slugValue : String) (scope : Scope) : Option LookupResult :=
  match searchHotShard w scope slugValue with
  | some result => some result
  | none => searchHotViaManifest w slugValue

/-- `loadLegacyPost` of `part_008`: the monolithic `posts.json` fallback; a
load error is caught and becomes `null`. -/
def loadLegacyPost (w : World) (slugValue : String) : Option LookupResult :=
  let normalized := slugify slugValue
  if normalized = "" then none
  else
    match w.legacyPosts with
    | none => none
    | some posts =>
      match findPostBySlug posts normalized with
      | none => none
      | some post => some { post := post, posts := posts, source := .legacy }

end Part008

/-- `.replace(/\/+$/, '')`. -/
def stripTrailingSlashes (s : String) : String :=
  String.mk ((s.toList.reverse.dropWhile (· = '/')).reverse)

/-- `.replace(/^\/+/, '')`. -/
def stripLeadingSlashes (s : String) : String :=
  String.mk (s.toList.dropWhile (· = '/'))

/-- `/^\d{n}$/`. -/
def isDigits (s : String) (n : Nat) : Bool :=
  s.length = n && strAll Char.isDigit s

/-- `parseInt(s, 10)` on all-digit strings (the only shape it is applied to
after an `isDigits` guard). -/
def parseIntNat (s : String) : Nat :=
  (strToNat? s).getD 0

/-- Modelled JS `new URL(value, window.location.href)` restricted to
absolute `http`/`https` URLs, yielding `(origin, pathname)` with query and
hash stripped; resolution of relative URLs against the page location is not
modelled and yields `none`. -/
def parseUrl (s : String) : Option (String × String) :=
  let scheme :=
    if strStartsWith s "https://" then some "https://"
    else if strStartsWith s "http://" then some "http://"
    else none
  match scheme with
  | none => none
  | some sch =>
    let rest := s.drop sch.length
    let host := strTakeWhile (fun c => decide (c ≠ '/' ∧ c ≠ '?' ∧ c ≠ '#')) rest
    if host = "" then none
    else
      let tail := rest.drop host.length
      let pathname := strTakeWhile (fun c => decide (c ≠ '?' ∧ c ≠ '#')) tail
      some (sch ++ host, if pathname = "" then "/" else pathname)

/-- Modelled JS `Date.parse` restricted to ISO `YYYY-MM-DD` date-only
strings (the format the shard data carries); every other string parses as
`NaN`, i.e. `none`. -/
def jsDateParse (s : String) : Option (Nat × Nat × Nat) :=
  match splitOnChar '-' s with
  | [y, m, d] =>
    if y.length = 4 ∧ m.length = 2 ∧ d.length = 2
        ∧ strAll Char.isDigit y ∧ strAll Char.isDigit m ∧ strAll Char.isDigit d then
      match strToNat? y, strToNat? m, strToNat? d with
      | some yn, some mn, some dn =>
        if 1 ≤ mn ∧ mn ≤ 12 ∧ 1 ≤ dn ∧ dn ≤ 31 then some (yn, mn, dn) else none
      | _, _, _ => none
    else none
  | _ => none

/-- `parseDateValue` combined with the `if (!timestamp)` guard of its
callers: `Date.parse` maps the 1970-01-01 epoch to the (falsy) timestamp
0 and every unparseable string to 0 as well, so both read as `none`. -/
def parseDateValueT (s : String) : Option (Nat × Nat × Nat) :=
  match jsDateParse s with
  | some (1970, 1, 1) => none
  | some ymd => some ymd
  | none => none

namespace Part008

/-- The inner segment loop of `parseCanonicalUrl` (`part_008`): scan for
the first adjacent `\d{4}`, `\d{2}` segment pair followed by at least one
more segment, accumulating the preceding segments in `front`. -/
def scanYmGo (info0 : ArchiveContext) (front : List String) :
    List String → ArchiveContext
  | s0 :: s1 :: s2 :: rest =>
    if isDigits s0 4 ∧ isDigits s1 2 then
      let withScope : ArchiveContext :=
        if front.length = 1 then
          { info0 with parent := jsOr (slugify (front.getD 0 "")) "index", child := "index" }
        else if front.length ≥ 2 then
          { info0 with parent := jsOr (slugify (front.getD 0 "")) "index",
                       child := jsOr (slugify (front.getLastD "")) "index" }
        else info0
      { withScope with year := some (parseIntNat s0), month := some (parseIntNat s1),
                       slug := slugify s2 }
    else scanYmGo info0 (front ++ [s0]) (s1 :: s2 :: rest)
  | _ => info0

/-- `parseCanonicalUrl` of `part_008`. -/
def parseCanonicalUrl (url : String) : Option ArchiveContext :=
  if url = "" then none
  else
    let trimmed := jsTrim url
    if trimmed = "" then none
    else
      match parseUrl trimmed with
      | none => none
      | some (origin, pathname) =>
        let segments := (splitOnChar '/' pathname).filter (fun seg => seg ≠ "")
        if segments.isEmpty then none
        else
          let info0 : ArchiveContext :=
            { origin := origin, parent := "index", child := "index", slug := "" }
          let info :=
            if segments.length ≥ 5 ∧ isDigits (segments.getD 2 "") 4
                ∧ isDigits (segments.getD 3 "") 2 then
              { info0 with parent := jsOr (slugify (segments.getD 0 "")) "index",
                           child := jsOr (slugify (segments.getD 1 "")) "index",
                           year := some (parseIntNat (segments.getD 2 "")),
                           month := some (parseIntNat (segments.getD 3 "")),
                           slug := slugify (segments.getD 4 "") }
            else if segments.length ≥ 4 ∧ isDigits (segments.getD 1 "") 4
                ∧ isDigits (segments.getD 2 "") 2 then
              { info0 with parent := jsOr (slugify (segments.getD 0 "")) "index",
                           child := "index",
                           year := some (parseIntNat (segments.getD 1 "")),
                           month := some (parseIntNat (segments.getD 2 "")),
                           slug := slugify (segments.getD 3 "") }
            else scanYmGo info0 [] segments
          let info :=
            if info.slug = "" then { info with slug := slugify (segments.getLastD "") } else info
          some info

/-- The date-derived fallback branch of `ensureArchiveContextFromPost`
(`part_008`). -/
def ensureContextFromDate (post : Post) (fallbackScope : Option Scope) : Option ArchiveContext :=
  match parseDateValueT (jsOr post.date (jsOr post.published_at
      (jsOr post.created_at post.updated_at))) with
  | none => none
  | some (year, month, _) =>
    let parent :=
      match fallbackScope with
      | some fs => if fs.parent ≠ "" then fs.parent else jsOr (getPostParentSlug post) "index"
      | none => jsOr (getPostParentSlug post) "index"
    let child :=
      match fallbackScope with
      | some fs => if fs.child ≠ "" then fs.child else jsOr (getPostChildSlug post) "index"
      | none => jsOr (getPostChildSlug post) "index"
    some { origin := ARCHIVE_ORIGIN, parent := jsOr parent "index", child := jsOr child "index",
           year := some year, month := some month,
           slug := slugify (jsOr post.slug post.title) }

/-- `ensureArchiveContextFromPost` of `part_008`: the canonical-URL branch
requires truthy (non-null, non-zero) year and month. -/
def ensureArchiveContextFromPost (post : Post) (fallbackScope : Option Scope) :
    Option ArchiveContext :=
  match parseCanonicalUrl (jsOr post.canonical post.archive_url) with
  | some canonicalInfo =>
    if canonicalInfo.year ≠ none ∧ canonicalInfo.year ≠ some 0
        ∧ canonicalInfo.month ≠ none ∧ canonicalInfo.month ≠ some 0 then
      let ci :=
        if canonicalInfo.parent = "" then
          match fallbackScope with
          | some fs => { canonicalInfo with parent := fs.parent }
          | none => canonicalInfo
        else canonicalInfo
      let ci :=
        if ci.child = "" then
          match fallbackScope with
          | some fs => { ci with child := fs.child }
          | none => ci
        else ci
      some ci
    else ensureContextFromDate post fallbackScope
  | none => ensureContextFromDate post fallbackScope

/-- `ensureArchiveFromHot` of `part_008`: after a hot hit, try the archive
shard named by the post's canonical/date context.  Returns the result, the
updated attempted set, and the archive fetch log. -/
def ensureArchiveFromHot (w : World) (hotResult : LookupResult) (attempted : Attempted) :
    Option LookupResult × Attempted × List String :=
  match ensureArchiveContextFromPost hotResult.post hotResult.scope with
  | none => (none, attempted, [])
  | some context =>
    match context.year, context.month with
    | some year, some month =>
      let scope : Scope := ⟨jsOr context.parent "index", jsOr context.child "index"⟩
      let key := monthKey scope.parent scope.child year month
      if attempted.contains key then (none, attempted, [])
      else
        let attempted' := key :: attempted
        match w.archiveShard scope.parent scope.child year month with
        | none => (none, attempted', [key])
        | some items =>
          match findPostBySlug items (jsOr hotResult.post.slug hotResult.post.title) with
          | none => (none, attempted', [key])
          | some post =>
            (some { post := post, posts := items, source := .archive,
                    context := some { parent := scope.parent, child := scope.child,
                                      year := some year, month := some month } },
             attempted', [key])
    | _, _ => (none, attempted, [])

/-- `buildCanonicalPath` of `part_008`: parent, child (or `index`), then
four-digit year and two-digit month when the context carries them as
numbers, then the slug, with a trailing slash. -/
def buildCanonicalPath (context : ArchiveContext) (slugValue : String) : String :=
  let parent := jsOr context.parent "index"
  let child := context.child
  let year := match context.year with | some y => padNumber y 4 | none => ""
  let month := match context.month with | some m => padNumber m 2 | none => ""
  let finalSlug := slugify (jsOr context.slug slugValue)
  let parts := [jsOr parent "index"]
    ++ [if child ≠ "" ∧ child ≠ "index" then child else "index"]
    ++ (if year ≠ "" then [year] else [])
    ++ (if month ≠ "" then [month] else [])
    ++ (if finalSlug ≠ "" then [finalSlug] else [])
  String.intercalate "/" parts ++ "/"

/-- `computeCanonicalUrl` of `part_008`: a non-empty trimmed explicit
`canonical` field wins; otherwise the path is derived and prefixed with the
context origin or the archive origin default. -/
def computeCanonicalUrl (post : Post) (context : ArchiveContext) : String :=
  if jsTrim post.canonical ≠ "" then jsTrim post.canonical
  else
    let baseOrigin :=
      if context.origin ≠ "" ∧ jsTrim context.origin ≠ "" then jsTrim context.origin
      else ARCHIVE_ORIGIN
    if baseOrigin = "" then ""
    else
      let path := buildCanonicalPath context post.slug
      if path = "" then ""
      else stripTrailingSlashes baseOrigin ++ "/" ++ stripLeadingSlashes path

/-- `loadArticleForSlug` of `part_008`, paired with its probe trace: one
`Tier` entry per tier probe issued, in order — entering `loadArchivePost`,
entering `loadHotPost`, an archive shard fetch by `ensureArchiveFromHot`,
and entering `loadLegacyPost`. -/
def loadArticleForSlug (w : World) (slugValue : String) (scope : Scope) :
    Option LookupResult × List Tier :=
  if slugValue = "" then (none, [])
  else
    match loadArchivePost w slugValue scope [] with
    | (some archiveResult, _, _) => (some archiveResult, [.archive])
    | (none, attempted, _) =>
      match loadHotPost w slugValue scope with
      | none => (loadLegacyPost w slugValue, [.archive, .hot, .legacy])
      | some hotResult =>
        match ensureArchiveFromHot w hotResult attempted with
        | (some archiveFromHot, _, log) =>
          (some archiveFromHot, [.archive, .hot] ++ if log.isEmpty then [] else [.archive])
        | (none, _, log) =>
          (some hotResult, [.archive, .hot] ++ if log.isEmpty then [] else [.archive])

end Part008

namespace Part009

/-- `parseCanonicalUrl` of `part_009`: the slug, child and parent are the
last three path segments (defaulting to `index`); no year/month fields. -/
def parseCanonicalUrl (url : String) : Option ArchiveContext :=
  if url = "" then none
  else
    let trimmed := jsTrim url
    if trimmed = "" then none
    else
      match parseUrl trimmed with
      | none => none
      | some (origin, pathname) =>
        let segments := (splitOnChar '/' pathname).filter (fun seg => seg ≠ "")
        if segments.isEmpty then none
        else
          let slugSegment := segments.getLastD ""
          let childSegment :=
            if segments.length ≥ 2 then segments.getD (segments.length - 2) "" else "index"
          let parentSegment :=
            if segments.length ≥ 3 then segments.getD (segments.length - 3) "" else "index"
          some { origin := origin,
                 parent := jsOr (slugify parentSegment) "index",
                 child := jsOr (slugify childSegment) "index",
                 slug := slugify slugSegment }

/-- `buildCanonicalPath` of `part_009`: only parent, child (or `index`) and
slug — no year/month segments exist in this version. -/
def buildCanonicalPath (context : ArchiveContext) (slugValue : String) : String :=
  let parent0 := if context.parent ≠ "" then slugify context.parent else ""
  let parent := if parent0 = "" then "index" else parent0
  let child0 := if context.child ≠ "" then slugify context.child else ""
  let child := if child0 = "" then "index" else child0
  let finalSlug := slugify (jsOr context.slug slugValue)
  let segments := [jsOr parent "index", jsOr child "index"]
    ++ (if finalSlug ≠ "" then [finalSlug] else [])
  String.intercalate "/" segments ++ "/"

/-- `computeCanonicalUrl` of `part_009` (same shell as `part_008`, calling
this file's `buildCanonicalPath`). -/
def computeCanonicalUrl (post : Post) (context : ArchiveContext) : String :=
  if jsTrim post.canonical ≠ "" then jsTrim post.canonical
  else
    let baseOrigin :=
      if context.origin ≠ "" ∧ jsTrim context.origin ≠ "" then jsTrim context.origin
      else ARCHIVE_ORIGIN
    if baseOrigin = "" then ""
    else
      let path := buildCanonicalPath context post.slug
      if path = "" then ""
      else stripTrailingSlashes baseOrigin ++ "/" ++ stripLeadingSlashes path

/-- `mergeArchiveWithHot` of `part_009`.  Every field is an `||`-chain that
prefers the archive record's variants and falls back to the hot record;
fields the JS merged object does not set keep their `""` default. -/
def mergeArchiveWithHot (archive hot : Post) (slugValue : String) : Post :=
  let body0 := jsOr archive.body (jsOr archive.content
    (jsOr archive.html (jsOr archive.content_html hot.body)))
  let body1 := if body0 = "" ∧ archive.body_html ≠ "" then archive.body_html else body0
  let body2 := if body1 = "" ∧ archive.summary_html ≠ "" then archive.summary_html else body1
  let excerpt0 := jsOr archive.excerpt (jsOr archive.summary
    (jsOr archive.description hot.excerpt))
  let canonical := jsOr archive.canonical hot.canonical
  { slug := slugify (jsOr archive.slug (jsOr hot.slug slugValue)),
    title := jsOr archive.title hot.title,
    excerpt := if excerpt0 = "" ∧ archive.summary_html ≠ "" then stripHtml archive.summary_html
               else excerpt0,
    body := body2,
    cover := jsOr archive.cover (jsOr archive.image hot.cover),
    category := jsOr archive.category hot.category,
    subcategory := jsOr archive.subcategory hot.subcategory,
    category_slug := jsOr archive.category_slug hot.category_slug,
    date := jsOr archive.date (jsOr archive.published_at (jsOr archive.created_at
      (jsOr hot.date (jsOr hot.published_at hot.created_at)))),
    published_at := jsOr archive.published_at hot.published_at,
    updated_at := jsOr archive.updated_at hot.updated_at,
    source := jsOr archive.source hot.source,
    source_name := jsOr archive.source_name hot.source_name,
    source_domain := jsOr archive.source_domain hot.source_domain,
    author := jsOr archive.author hot.author,
    rights := jsOr archive.rights hot.rights,
    canonical := canonical,
    archive_url := jsOr archive.archive_url (jsOr hot.archive_url canonical),
    url := jsOr archive.url hot.url }

end Part009

namespace DataLoader

/-- `slugifySegment` of `data-loader.js`: lowercase, collapse
`[^a-z0-9]+` runs to `-`, strip outer hyphens. -/
def slugifySegment (value : String) : String :=
  trimHyphens (collapseNonAlnum (jsLower value))

/-- `/^[a-z0-9]+(?:-[a-z0-9]+)*$/`: non-empty lowercase alphanumeric groups
joined by single hyphens. -/
def isKebab (s : String) : Bool :=
  (splitOnChar '-' s).all (fun part =>
    part ≠ "" && strAll (fun c => ('a' ≤ c && c ≤ 'z') || ('0' ≤ c && c ≤ '9')) part)

/-- `normalizeSlug` of `data-loader.js`. -/
def normalizeSlug (value : String) : String :=
  let str := jsTrim value
  if str = "" then ""
  else
    let lowered := jsLower str
    if strContains lowered '/' then
      String.intercalate "/"
        (((splitOnChar '/' lowered).map slugifySegment).filter (fun part => part ≠ ""))
    else if isKebab lowered then lowered
    else slugifySegment lowered

/-! ### The dedup store (`Deduper`) -/

/-- `Deduper.prototype._keysFor`: all identity keys derived from a post.
`getString` is the identity on the string fields modelled here, and the
`||`-chains read absent fields as `""`. -/
def deduperKeysFor (post : Post) : List String :=
  (if post.id ≠ "" then ["id:" ++ post.id] else [])
  ++ (if post.slug ≠ "" then ["slug:" ++ jsLower post.slug] else [])
  ++ (let url := jsOr post.url (jsOr post.link post.permalink)
      if url ≠ "" then ["url:" ++ url] else [])
  ++ (if post.guid ≠ "" then ["guid:" ++ post.guid] else [])
  ++ (let title := jsTrim post.title
      let date := jsTrim (jsOr post.date (jsOr post.published_at
        (jsOr post.pubDate (jsOr post.published post.datetime))))
      if title ≠ "" then ["title-date:" ++ title ++ "|" ++ date] else [])

/-- The `_seen` map of a `Deduper`, as the list of keys marked so far. -/
abbrev DeduperState := List String

/-- `Deduper.prototype.add`: accept the post (returning `true` and marking
all of its keys) unless any derived key has been seen before; a post with
no keys at all is accepted without marking anything. -/
def deduperAdd (seen : DeduperState) (post : Post) : Bool × DeduperState :=
  let keys := deduperKeysFor post
  if keys.isEmpty then (true, seen)
  else if keys.any (fun key => seen.contains key) then (false, seen)
  else (true, keys ++ seen)

/-! ### Category index fetch -/

/-- The parsed `category_aliases.json` config (`aliases` is a JSON object,
modelled as an association list; `Object.prototype.hasOwnProperty` becomes
`lookup`). -/
structure AliasConfig where
  aliases : List (String × String) := []
  standard_child : String := ""

/-- `resolveHotFallbackPath` of `data-loader.js`: `config` is the resolved
alias document (`none` when its fetch failed). -/
def resolveHotFallbackPath (config : Option AliasConfig) (slug : String) : String :=
  let normalizedSlug := normalizeSlug slug
  if normalizedSlug = "" then ""
  else
    let aliasValue :=
      match config with
      | some cfg =>
        match cfg.aliases.lookup (normalizedSlug ++ "/index") with
        | some v => v
        | none => ""
      | none => ""
    let fallbackTarget0 := if aliasValue ≠ "" then normalizeSlug aliasValue else ""
    let fallbackTarget :=
      if fallbackTarget0 ≠ "" then fallbackTarget0
      else
        let standardChild0 :=
          match config with
          | some cfg => if cfg.standard_child ≠ "" then normalizeSlug cfg.standard_child else ""
          | none => ""
        let standardChild := if standardChild0 = "" then "general" else standardChild0
        normalizedSlug ++ "/" ++ standardChild
    if fallbackTarget = "" then ""
    else "/data/hot/" ++ fallbackTarget ++ "/index.json"

/-- The `{slug, subcategory}` part of the category page state consumed by
`fetchCategoryIndex`. -/
structure CatState where
  slug : String
  subcategory : String := ""

/-- `fetchCategoryIndex` of `data-loader.js`, over an abstract fetch layer
(`none` models a rejected `fetchJson`).  Returns the payload (or `none`
when the promise rejects) and the list of paths fetched, in order.  With a
subcategory present, a miss rethrows immediately; only the
subcategory-free path may consult the alias fallback. -/
def fetchCategoryIndex {α : Type} (fetch : String → Option α)
    (aliasConfig : Option AliasConfig) (state : CatState) :
    Option α × List String :=
  if state.slug = "" then (none, [])
  else
    let path := "/data/hot/" ++ state.slug
      ++ (if state.subcategory ≠ "" then "/" ++ state.subcategory else "")
      ++ "/index.json"
    match fetch path with
    | some payload => (some payload, [path])
    | none =>
      if state.subcategory ≠ "" then (none, [path])
      else
        let fallbackPath := resolveHotFallbackPath aliasConfig state.slug
        if fallbackPath = "" ∨ fallbackPath = path then (none, [path])
        else
          match fetch fallbackPath with
          | some payload => (some payload, [path, fallbackPath])
          | none => (none, [path, fallbackPath])

end DataLoader

namespace CheckCritical

/-- The outcome of `fs.statSync`: `none` models a thrown error (path
absent). -/
structure FileStat where
  isFile : Bool
  size : Nat
deriving DecidableEq, Repr

/-- A `{path, is_global, critical, ...}` entry of the hot manifest as the
script reads it. -/
structure CShard where
  is_global : Bool := false
  critical : Bool := false
  path : String := ""
deriving DecidableEq, Repr

/-- The parsed hot `manifest.json`; `none` for `shards` models a document
without a `shards` array, and the whole manifest is `none` when
`readJson` fails (missing, empty or unparseable file). -/
structure CManifest where
  shards : Option (List CShard) := none
deriving DecidableEq, Repr

/-- `normalizeRelative`: backslashes to slashes, strip leading slashes,
then trim. -/
def normalizeRelative (relativePath : String) : String :=
  jsTrim (stripLeadingSlashes (String.mk (relativePath.toList.map
    (fun c => if c = '\\' then '/' else c))))

/-- `path.join` on the already-normalized segments the script produces
(no `..`/`.` handling needed). -/
def joinPath (a b : String) : String :=
  if a = "" then b else a ++ "/" ++ b

/-- JS `Set` insertion order: keep the first occurrence of each element. -/
def dedupKeepFirst : List String → List String
  | [] => []
  | x :: rest => x :: (dedupKeepFirst rest).filter (fun y => y ≠ x)

/-- `collectHotCriticalIndexes`: paths of manifest shards flagged
`is_global` or `critical` whose normalized path ends in `index.json`,
anchored under `<root>/data/hot`. -/
def collectHotCriticalIndexes (rootDir : String) (manifest : Option CManifest) : List String :=
  match manifest with
  | none => []
  | some m =>
    match m.shards with
    | none => []
    | some shards =>
      dedupKeepFirst (shards.filterMap (fun shard =>
        if ¬shard.is_global ∧ ¬shard.critical then none
        else
          let normalized := normalizeRelative shard.path
          if normalized = "" ∨ ¬strEndsWith normalized "index.json" then none
          else some (joinPath rootDir (joinPath "data/hot" normalized))))

/-- `verifyIndexes`, reduced to the process exit code it forces: `1` when
any path is missing (stat throws or is not a regular file) or empty
(size 0), else `0`. -/
def verifyIndexesExit (stat : String → Option FileStat) (indexPaths : List String) : Nat :=
  let missing := indexPaths.filter (fun p =>
    match stat p with
    | none => true
    | some st => ¬st.isFile)
  let empty := indexPaths.filter (fun p =>
    match stat p with
    | none => false
    | some st => st.isFile ∧ st.size = 0)
  if ¬missing.isEmpty ∨ ¬empty.isEmpty then 1 else 0

/-- The critical path set `main` verifies: the manually-listed
`data/index.json` plus the manifest-derived hot critical indexes, with
`Set` dedup. -/
def criticalPaths (rootDir : String) (hotManifest : Option CManifest) : List String :=
  dedupKeepFirst ([joinPath rootDir "data/index.json"]
    ++ collectHotCriticalIndexes rootDir hotManifest)

/-- `main` of `check-critical-indexes.js`, as its exit code (`0` also covers
the no-paths warning branch, which is unreachable since the manual entry is
always present). -/
def runCheck (rootDir : String) (hotManifest : Option CManifest)
    (stat : String → Option FileStat) : Nat :=
  let uniquePaths := criticalPaths rootDir hotManifest
  if uniquePaths.isEmpty then 0
  else verifyIndexesExit stat uniquePaths

end CheckCritical

/-- The first parseable date among the candidate fields (`if (!value)
continue; ... if (!isNaN(time)) return time`). -/
def firstParsedDate : List String → Option (Nat × Nat × Nat)
  | [] => none
  | v :: rest =>
    if v = "" then firstParsedDate rest
    else
      match jsDateParse v with
      | some t => some t
      | none => firstParsedDate rest

/-- An order-faithful re-indexing of the millisecond timestamp of an ISO
date: strictly monotone in `(y, m, d)`, with the 1970-01-01 epoch at `0`
(matching JS, where both that date and an unparseable string yield a falsy
or zero value).  Only comparisons of timestamps are ever consumed. -/
def dateCode (y m d : Nat) : Int :=
  ((y * 16 + m) * 32 + d : Int) - ((1970 * 16 + 1) * 32 + 1 : Int)

/-- `getPostTimestamp` (identical candidate order in `part_008` and
`category.js`): `date`, `updated_at`, `published_at`, `created_at`,
defaulting to 0. -/
def getPostTimestamp (post : Post) : Int :=
  match firstParsedDate [post.date, post.updated_at, post.published_at, post.created_at] with
  | some (y, m, d) => dateCode y m d
  | none => 0

/-- `sortPosts`/`sortPostsByDate`: stable sort by timestamp descending. -/
def sortPosts (posts : List Post) : List Post :=
  posts.mergeSort (fun a b => getPostTimestamp b ≤ getPostTimestamp a)

/-- `resolvePostKey` (identical in `part_008` and `category.js`). -/
def resolvePostKey (post : Post) : String :=
  if post.slug ≠ "" then slugify post.slug
  else if post.url ≠ "" then jsLower (jsTrim post.url)
  else if post.source ≠ "" then jsLower (jsTrim post.source)
  else if post.title ≠ "" then slugify post.title
  else ""

/-- `dedupePosts` (identical in `part_008` and `category.js`): keep the
first post per non-empty key, keep keyless posts unconditionally. -/
def dedupePostsGo : List Post → List String → List Post
  | [], _ => []
  | post :: rest, seen =>
    let key := resolvePostKey post
    if key ≠ "" ∧ seen.contains key then dedupePostsGo rest seen
    else if key ≠ "" then post :: dedupePostsGo rest (key :: seen)
    else post :: dedupePostsGo rest seen

def dedupePosts (posts : List Post) : List Post :=
  dedupePostsGo posts []

namespace Category

/-- The `appendSlug` closure of `resolvePostCategorySlugs`. -/
def appendSlug (acc : List String) (value : String) : List String :=
  let trimmed := jsTrim value
  if trimmed = "" then acc
  else
    let normalized := slugify trimmed
    if normalized = "" ∨ acc.contains normalized then acc
    else acc ++ [normalized]

/-- `resolvePostCategorySlugs` of `category.js`. -/
def resolvePostCategorySlugs (post : Post) : List String :=
  let acc : List String := []
  let acc :=
    if jsTrim post.category_slug ≠ "" then
      let acc := appendSlug acc post.category_slug
      let rawSegments := splitOnChar '/' post.category_slug
      if rawSegments.length > 1 then appendSlug acc (rawSegments.getLastD "") else acc
    else acc
  let acc := appendSlug acc post.subcategory
  let acc :=
    if strContains post.subcategory '/' then
      appendSlug acc ((splitOnChar '/' post.subcategory).getLastD "")
    else acc
  let acc := appendSlug acc post.category
  let acc :=
    if strContains post.category '/' then
      appendSlug acc ((splitOnChar '/' post.category).getLastD "")
    else acc
  acc

/-- `matchesScope` of `category.js`; `lookup` models the
`CATEGORY_PARENT_LOOKUP` taxonomy table. -/
def matchesScope (lookup : String → Option Scope) (post : Post) (scope : Scope) : Bool :=
  let parent := jsOr scope.parent "index"
  let child := jsOr scope.child "index"
  if parent = "index" ∧ child = "index" then true
  else if child ≠ "index" then
    let childSlug := getPostChildSlug post
    if childSlug ≠ "" ∧ childSlug = child then true
    else (resolvePostCategorySlugs post).contains child
  else if parent = "" ∨ parent = "index" then true
  else
    let parentSlug := getPostParentSlug post
    if parentSlug ≠ "" ∧ parentSlug = parent then true
    else (resolvePostCategorySlugs post).any (fun slug =>
      match lookup slug with
      | some mapping => mapping.parent = parent
      | none => false)

def filterPostsByScope (lookup : String → Option Scope) (posts : List Post) (scope : Scope) :
    List Post :=
  posts.filter (fun post => matchesScope lookup post scope)

/-- `resolveScopeFromSlug` of `category.js`. -/
def resolveScopeFromSlug (lookup : String → Option Scope) (slug : String) : Scope :=
  if slug = "" then ⟨"index", "index"⟩
  else
    let normalized := slugify slug
    if normalized = "" then ⟨"index", "index"⟩
    else
      match lookup normalized with
      | some mapping => ⟨jsOr mapping.parent "index", jsOr mapping.child "index"⟩
      | none =>
        if strContains normalized '/' then
          let parts := splitOnChar '/' normalized
          ⟨jsOr (parts.headD "") "index", jsOr (parts.getLastD "") "index"⟩
        else ⟨normalized, "index"⟩

/-- `computePerPage` of `category.js`: the hot summary's `per_page` when it
is a positive number, else the archive summary's, else 12. -/
def computePerPageArchive (archiveSummary : Option Summary) : Int :=
  match archiveSummary with
  | some s =>
    match s.per_page with
    | some p => if p > 0 then p else 12
    | none => 12
  | none => 12

def computePerPage (hotSummary archiveSummary : Option Summary) : Int :=
  match hotSummary with
  | some s =>
    match s.per_page with
    | some p => if p > 0 then p else computePerPageArchive archiveSummary
    | none => computePerPageArchive archiveSummary
  | none => computePerPageArchive archiveSummary

/-- `computeTotalItems` of `category.js`. -/
def computeTotalItems (hotSummary archiveSummary : Option Summary) (scope : Scope)
    (fallbackCount : Int) : Int :=
  let hotPart :=
    match findChildSummary hotSummary scope.parent scope.child with
    | some entry => entry.items.getD 0
    | none => 0
  let archivePart :=
    match findChildSummary archiveSummary scope.parent scope.child with
    | some entry => entry.items.getD 0
    | none => 0
  let total := hotPart + archivePart
  if total = 0 ∧ fallbackCount > 0 then fallbackCount else total

/-- `Math.ceil(a / b)` for integers with `b > 0`. -/
def mathCeilDiv (a b : Int) : Int :=
  -(Int.ediv (-a) b)

/-- `resolveRequestedPage` of `category.js`; `pageParam` models the parsed
`page` query parameter (`none` = absent or `NaN`). -/
def resolveRequestedPage (pageParam : Option Int) (totalPages : Int) : Int :=
  let page := match pageParam with
    | some p => if p > 0 then p else 1
    | none => 1
  let page := if totalPages > 0 ∧ page > totalPages then totalPages else page
  if page < 1 then 1 else page

/-- The `next()` accumulation loop of `loadAdditionalArchivePosts`. -/
def loadArchiveLoop (archiveShard : String → String → Nat → Nat → Option (List Post))
    (scope : Scope) (existingCount targetCount : Int) :
    List MonthInfo → List Post → List Post
  | [], collected => collected
  | info :: rest, collected =>
    if existingCount + (collected.length : Int) ≥ targetCount then collected
    else
      let year := info.year.getD 1970
      let month := info.month.getD 1
      match archiveShard scope.parent scope.child year month with
      | none => loadArchiveLoop archiveShard scope existingCount targetCount rest collected
      | some items =>
        loadArchiveLoop archiveShard scope existingCount targetCount rest
          (if items.isEmpty then collected else collected ++ items)

/-- `loadAdditionalArchivePosts` of `category.js`, over the abstract
archive shard fetch layer (`none` = rejected fetch, recovered by moving to
the next month). -/
def loadAdditionalArchivePosts (archiveShard : String → String → Nat → Nat → Option (List Post))
    (scope : Scope) (existingCount targetCount : Int) (archiveSummary : Option Summary) :
    List Post :=
  match findChildSummary archiveSummary scope.parent scope.child with
  | none => []
  | some childInfo =>
    let months := childInfo.months.getD []
    if months.isEmpty then []
    else loadArchiveLoop archiveShard scope existingCount targetCount months []

/-- The dataset record `renderCategoryDataset` receives. -/
structure Dataset where
  filtered : List Post
  allPosts : List Post
  perPage : Int
  totalItems : Int
  totalPages : Int
  page : Int
deriving Repr

/-- The dataset construction of `loadHotCategory` (`category.js`), with the
fetched documents and the parsed query parameters as inputs: `hotPosts` is
the successfully fetched hot shard payload (a fetch failure falls back to
the legacy dataset before this code runs). -/
def loadHotCategoryDataset (archiveShard : String → String → Nat → Nat → Option (List Post))
    (lookup : String → Option Scope) (hotSummary archiveSummary : Option Summary)
    (catSlug : String) (hotPosts : List Post) (pageParam : Option Int) : Dataset :=
  let scope := resolveScopeFromSlug lookup catSlug
  let filteredHot := filterPostsByScope lookup hotPosts scope
  let sortedHot := sortPosts filteredHot
  let perPage0 := computePerPage hotSummary archiveSummary
  let perPage := if perPage0 ≤ 0 then 12 else perPage0
  let fallbackCount := (sortedHot.length : Int)
  let totalItems0 := computeTotalItems hotSummary archiveSummary scope fallbackCount
  let totalPages0 := if perPage > 0 then mathCeilDiv totalItems0 perPage else 0
  let totalItems1 := if totalItems0 = 0 ∧ ¬sortedHot.isEmpty then (sortedHot.length : Int)
                     else totalItems0
  let totalPages1 := if totalItems0 = 0 ∧ ¬sortedHot.isEmpty then
                       (if perPage > 0 then mathCeilDiv totalItems1 perPage else 0)
                     else totalPages0
  let page1 := resolveRequestedPage pageParam totalPages1
  let targetCount0 := if page1 > 0 then page1 * perPage else perPage
  let targetCount := if targetCount0 = 0 ∨ targetCount0 < perPage then perPage else targetCount0
  let archivePosts := loadAdditionalArchivePosts archiveShard scope
    (sortedHot.length : Int) targetCount archiveSummary
  let filteredArchive := filterPostsByScope lookup archivePosts scope
  let combined := dedupePosts (sortPosts (sortedHot ++ filteredArchive))
  let totalItems := if totalItems1 = 0 then (combined.length : Int) else totalItems1
  let totalPages := if totalItems1 = 0 then
                      (if perPage > 0 then mathCeilDiv totalItems perPage else 0)
                    else totalPages1
  let page := if totalItems1 = 0 then resolveRequestedPage pageParam totalPages else page1
  { filtered := combined, allPosts := combined, perPage := perPage,
    totalItems := totalItems, totalPages := totalPages, page := page }

/-- The dataset construction of `loadLegacyDataset` (`category.js`). -/
def loadLegacyDataset (allPosts : List Post) (catSlug : String) (pageParam : Option Int) :
    Dataset :=
  let allSorted := sortPosts allPosts
  let filtered :=
    if catSlug ≠ "" then
      allPosts.filter (fun p => (resolvePostCategorySlugs p).contains catSlug)
    else allPosts
  let filtered := sortPosts filtered
  let perPage : Int := 12
  let totalItems := (filtered.length : Int)
  let totalPages := if perPage > 0 then mathCeilDiv totalItems perPage else 0
  let page := resolveRequestedPage pageParam totalPages
  { filtered := filtered, allPosts := allSorted, perPage := perPage,
    totalItems := totalItems, totalPages := totalPages, page := page }

end Category

/-! ## Theorems -/

/-- C10: for every post and every scope whose resolved child is not
`index`, the scope filter of the resolvers accepts the post exactly when
the post's resolved child slug equals the scope child; the parent slug is
never consulted in that case, so a post of a different parent whose
subcategory slug equals `scope.child` is accepted as well. -/
theorem matchesScope_child_exact (post : Post) (scope : Scope)
    (h : jsOr scope.child "index" ≠ "index") :
    matchesScope post scope = true ↔ getPostChildSlug post = jsOr scope.child "index" := by
  by_cases hc : scope.child = ""
  · rw [jsOr, if_pos hc] at h
    exact absurd rfl h
  · have hne : jsOr scope.child "index" = scope.child := by rw [jsOr, if_neg hc]
    rw [hne] at h ⊢
    unfold matchesScope
    rw [hne]
    have hpc : ¬(jsOr scope.parent "index" = "index" ∧ scope.child = "index") := by
      rintro ⟨_, h2⟩
      exact h h2
    rw [if_neg hpc, if_pos h]
    simp only [decide_eq_true_eq]
    constructor
    · rintro ⟨_, h2⟩
      exact h2
    · intro h2
      exact ⟨by rw [h2]; exact hc, h2⟩

/-- Witness for C10: a post whose `category_slug` names the parent `food`
is accepted by the scope `(travel, europe)` because only the child slug is
compared. -/
theorem matchesScope_child_exact_witness :
    matchesScope { category_slug := "food/europe" } ⟨"travel", "europe"⟩ = true :=
  (matchesScope_child_exact { category_slug := "food/europe" } ⟨"travel", "europe"⟩
    (by decide)).mpr (by decide)

/-- C3: in `mergeArchiveWithHot`, the archive record wins for body/content,
and for every modelled field the hot record's value is used only when the
archive record's value (and its archive-side variants) are empty; a
non-empty archive field is never replaced by an empty (or any) hot field. -/
theorem mergeArchiveWithHot_policy (archive hot : Post) (slugValue : String) :
    ((archive.body ≠ "" →
        (Part009.mergeArchiveWithHot archive hot slugValue).body = archive.body) ∧
     (archive.body = "" ∧ archive.content = "" ∧ archive.html = "" ∧ archive.content_html = ""
        ∧ archive.body_html = "" ∧ archive.summary_html = "" →
        (Part009.mergeArchiveWithHot archive hot slugValue).body = hot.body)) ∧
    ((archive.title ≠ "" →
        (Part009.mergeArchiveWithHot archive hot slugValue).title = archive.title) ∧
     (archive.title = "" →
        (Part009.mergeArchiveWithHot archive hot slugValue).title = hot.title)) ∧
    ((archive.excerpt ≠ "" →
        (Part009.mergeArchiveWithHot archive hot slugValue).excerpt = archive.excerpt)) ∧
    ((archive.cover ≠ "" →
        (Part009.mergeArchiveWithHot archive hot slugValue).cover = archive.cover) ∧
     (archive.cover = "" ∧ archive.image = "" →
        (Part009.mergeArchiveWithHot archive hot slugValue).cover = hot.cover)) ∧
    ((archive.category ≠ "" →
        (Part009.mergeArchiveWithHot archive hot slugValue).category = archive.category) ∧
     (archive.category = "" →
        (Part009.mergeArchiveWithHot archive hot slugValue).category = hot.category)) ∧
    ((archive.subcategory ≠ "" →
        (Part009.mergeArchiveWithHot archive hot slugValue).subcategory = archive.subcategory) ∧
     (archive.subcategory = "" →
        (Part009.mergeArchiveWithHot archive hot slugValue).subcategory = hot.subcategory)) ∧
    ((archive.category_slug ≠ "" →
        (Part009.mergeArchiveWithHot archive hot slugValue).category_slug
          = archive.category_slug)) ∧
    ((archive.date ≠ "" →
        (Part009.mergeArchiveWithHot archive hot slugValue).date = archive.date)) ∧
    ((archive.source ≠ "" →
        (Part009.mergeArchiveWithHot archive hot slugValue).source = archive.source) ∧
     (archive.source = "" →
        (Part009.mergeArchiveWithHot archive hot slugValue).source = hot.source)) ∧
    ((archive.author ≠ "" →
        (Part009.mergeArchiveWithHot archive hot slugValue).author = archive.author)) ∧
    ((archive.rights ≠ "" →
        (Part009.mergeArchiveWithHot archive hot slugValue).rights = archive.rights)) ∧
    ((archive.canonical ≠ "" →
        (Part009.mergeArchiveWithHot archive hot slugValue).canonical = archive.canonical) ∧
     (archive.canonical = "" →
        (Part009.mergeArchiveWithHot archive hot slugValue).canonical = hot.canonical)) ∧
    ((archive.url ≠ "" →
        (Part009.mergeArchiveWithHot archive hot slugValue).url = archive.url) ∧
     (archive.url = "" →
        (Part009.mergeArchiveWithHot archive hot slugValue).url = hot.url)) := by
  refine ⟨⟨?_, ?_⟩, ⟨?_, ?_⟩, ?_, ⟨?_, ?_⟩, ⟨?_, ?_⟩, ⟨?_, ?_⟩, ?_, ?_, ⟨?_, ?_⟩,
    ?_, ?_, ⟨?_, ?_⟩, ⟨?_, ?_⟩⟩ <;>
    (intro h; simp [Part009.mergeArchiveWithHot, jsOr, h])

/-! ### Concrete worlds for the resolver claims -/

/-- A hot-tier post with an exact `(travel, europe)` scope. -/
def demoPost : Post :=
  { slug := "lisbon-guide", title := "Lisbon Guide", category_slug := "travel/europe" }

/-- A world whose only content is `demoPost` in the `(travel, europe)` hot
shard; every other tier is empty or failing. -/
def hotOnlyWorld : World :=
  { hotShard := fun parent child =>
      if parent = "travel" ∧ child = "europe" then some [demoPost] else none,
    archiveShard := fun _ _ _ _ => none,
    archiveSummary := none, archiveManifest := none, hotManifest := none,
    legacyPosts := none }

/-- A world whose only content is `demoPost` in the legacy `posts.json`. -/
def legacyOnlyWorld : World :=
  { hotShard := fun _ _ => none, archiveShard := fun _ _ _ _ => none,
    archiveSummary := none, archiveManifest := none, hotManifest := none,
    legacyPosts := some [demoPost] }

/-- A world with no content at all (every fetch fails or is empty). -/
def emptyWorld : World :=
  { hotShard := fun _ _ => none, archiveShard := fun _ _ _ _ => none,
    archiveSummary := none, archiveManifest := none, hotManifest := none,
    legacyPosts := none }

def stormPost : Post := { slug := "storm-post", title := "Storm", category_slug := "news" }

/-- Thirteen summary months, most recent first. -/
def months13 : List MonthInfo :=
  [⟨some 2024, some 12⟩, ⟨some 2024, some 11⟩, ⟨some 2024, some 10⟩, ⟨some 2024, some 9⟩,
   ⟨some 2024, some 8⟩, ⟨some 2024, some 7⟩, ⟨some 2024, some 6⟩, ⟨some 2024, some 5⟩,
   ⟨some 2024, some 4⟩, ⟨some 2024, some 3⟩, ⟨some 2024, some 2⟩, ⟨some 2024, some 1⟩,
   ⟨some 2023, some 12⟩]

def child13 : ChildSummary := { child := "index", months := some months13 }

def parent13 : ParentSummary := { parent := "news", children := some [child13] }

def summary13 : Summary := { parents := some [parent13] }

/-- A world whose archive summary lists thirteen months for `(news, index)`
and whose only matching post lives in the thirteenth (oldest) month's
shard; all other months are empty. -/
def thirteenMonthWorld : World :=
  { hotShard := fun _ _ => none,
    archiveShard := fun parent child year month =>
      if parent = "news" ∧ child = "index" ∧ year = 2023 ∧ month = 12 then some [stormPost]
      else some [],
    archiveSummary := some summary13,
    archiveManifest := none, hotManifest := none, legacyPosts := none }

/-! ### C1: tier order of the `part_008` resolver -/

/-- C1 is false on the code: in the `part_008` resolver a slug that lives in
the hot shard of the requested scope is still probed in the ARCHIVE tier
first; the probe trace is archive-then-hot, not the hot-first short-circuit
the claim states (which would have stopped at `[hot]`). -/
theorem loadArticleForSlug_archive_first_counterexample :
    (Part008.loadArticleForSlug hotOnlyWorld "lisbon-guide" ⟨"travel", "europe"⟩).2
        = [Tier.archive, Tier.hot]
    ∧ ((Part008.loadArticleForSlug hotOnlyWorld "lisbon-guide" ⟨"travel", "europe"⟩).1.map
        LookupResult.source) = some Tier.hot
    ∧ ([Tier.archive, Tier.hot] : List Tier) ≠ [Tier.hot] :=
  ⟨by decide, by decide, by decide⟩

/-- C1 amended: the `part_008` resolver probes archive → hot → legacy,
short-circuiting between tiers: an archive hit returns without consulting
hot or legacy; after an archive miss a hot hit is returned (with at most
one extra archive shard fetch, used for the merge) without consulting
legacy; legacy is consulted only when both archive and hot missed.  (The
`part_009` resolver instead probes hot first.) -/
theorem loadArticleForSlug_tier_order (w : World) (slugValue : String) (scope : Scope)
    (h : slugValue ≠ "") :
    (∀ r a l, Part008.loadArchivePost w slugValue scope [] = (some r, a, l) →
      Part008.loadArticleForSlug w slugValue scope = (some r, [Tier.archive])) ∧
    (∀ a l, Part008.loadArchivePost w slugValue scope [] = (none, a, l) →
      Part008.loadHotPost w slugValue scope = none →
      Part008.loadArticleForSlug w slugValue scope
        = (Part008.loadLegacyPost w slugValue, [Tier.archive, Tier.hot, Tier.legacy])) ∧
    (∀ a l hr, Part008.loadArchivePost w slugValue scope [] = (none, a, l) →
      Part008.loadHotPost w slugValue scope = some hr →
      (Part008.loadArticleForSlug w slugValue scope).1.isSome = true
      ∧ ((Part008.loadArticleForSlug w slugValue scope).2 = [Tier.archive, Tier.hot]
         ∨ (Part008.loadArticleForSlug w slugValue scope).2
             = [Tier.archive, Tier.hot, Tier.archive])) := by
  refine ⟨?_, ?_, ?_⟩
  · intro r a l harch
    simp [Part008.loadArticleForSlug, if_neg h, harch]
  · intro a l harch hhot
    simp [Part008.loadArticleForSlug, if_neg h, harch, hhot]
  · intro a l hr harch hhot
    rcases he : Part008.ensureArchiveFromHot w hr a with ⟨er, ea, el⟩
    cases er with
    | none =>
      cases hel : el.isEmpty
      all_goals simp [Part008.loadArticleForSlug, if_neg h, harch, hhot, he, hel]
    | some r2 =>
      cases hel : el.isEmpty
      all_goals simp [Part008.loadArticleForSlug, if_neg h, harch, hhot, he, hel]

/-- Witness for the amended C1: on a world whose only copy of the post is
legacy, the trace is archive, hot, legacy and the legacy result is
surfaced. -/
theorem loadArticleForSlug_tier_order_witness :
    Part008.loadArticleForSlug legacyOnlyWorld "lisbon-guide" ⟨"index", "index"⟩
      = (Part008.loadLegacyPost legacyOnlyWorld "lisbon-guide",
         [Tier.archive, Tier.hot, Tier.legacy]) :=
  (loadArticleForSlug_tier_order legacyOnlyWorld "lisbon-guide" ⟨"index", "index"⟩
      (by decide)).2.1 [] [] (by decide) (by decide)

/-! ### C2: NotFound only on exhaustion -/

/-- C2: the `part_008` resolver yields an empty result exactly when every
tier — archive, hot and legacy — produced no result.  Each tier's fetch
and parse failures are absorbed locally (they surface as misses that
advance the walk), so no failure propagates to the caller. -/
theorem loadArticleForSlug_notfound_iff (w : World) (slugValue : String) (scope : Scope)
    (h : slugValue ≠ "") :
    (Part008.loadArticleForSlug w slugValue scope).1 = none ↔
      ((Part008.loadArchivePost w slugValue scope []).1 = none
       ∧ Part008.loadHotPost w slugValue scope = none
       ∧ Part008.loadLegacyPost w slugValue = none) := by
  rcases harch : Part008.loadArchivePost w slugValue scope [] with ⟨r1, a1, l1⟩
  cases r1 with
  | some r => simp [Part008.loadArticleForSlug, if_neg h, harch]
  | none =>
    cases hhot : Part008.loadHotPost w slugValue scope with
    | none => simp [Part008.loadArticleForSlug, if_neg h, harch, hhot]
    | some hr =>
      rcases he : Part008.ensureArchiveFromHot w hr a1 with ⟨er, ea, el⟩
      cases er with
      | none =>
        cases hel : el.isEmpty
        all_goals simp [Part008.loadArticleForSlug, if_neg h, harch, hhot, he, hel]
      | some r2 =>
        cases hel : el.isEmpty
        all_goals simp [Part008.loadArticleForSlug, if_neg h, harch, hhot, he, hel]

/-- Witness for C2: on the empty world the result is NotFound, via the
right-to-left direction with all three tiers exhausted. -/
theorem loadArticleForSlug_notfound_iff_witness :
    (Part008.loadArticleForSlug emptyWorld "lisbon-guide" ⟨"travel", "europe"⟩).1 = none :=
  (loadArticleForSlug_notfound_iff emptyWorld "lisbon-guide" ⟨"travel", "europe"⟩
      (by decide)).mpr ⟨by decide, by decide, by decide⟩

/-! ### C5: the archive month probe has no 12-month cap -/

/-- C5 is false on the code: with thirteen summary months for the scope,
`loadArchivePost` fetches all thirteen month shards — the thirteenth
(oldest) fetch happens and yields the hit — so the probe is not capped at
a 12-month lookback. -/
theorem loadArchivePost_no_month_cap_counterexample :
    (Part008.loadArchivePost thirteenMonthWorld "storm-post" ⟨"news", "index"⟩ []).2.2.length = 13
    ∧ (Part008.loadArchivePost thirteenMonthWorld "storm-post" ⟨"news", "index"⟩ []).2.2.contains
        (Part008.monthKey "news" "index" 2023 12) = true
    ∧ ((Part008.loadArchivePost thirteenMonthWorld "storm-post" ⟨"news", "index"⟩ []).1.map
        (fun r => r.context))
      = some (some { origin := "", parent := "news", child := "index",
                     year := some 2023, month := some 12, slug := "" }) :=
  ⟨by decide, by decide, by decide⟩

/-- The month-probe fetch schedule as the amended claim words it: every
month entry of the summary list in list order that carries a year and a
month and was not already attempted — with no lookback cap. -/
def expectedMonthKeys (scope : Scope) : List MonthInfo → List String → List String
  | [], _ => []
  | info :: rest, attempted =>
    match info.year, info.month with
    | some y, some m =>
      let key := Part008.monthKey scope.parent scope.child y m
      if attempted.contains key then expectedMonthKeys scope rest attempted
      else key :: expectedMonthKeys scope rest (key :: attempted)
    | _, _ => expectedMonthKeys scope rest attempted

set_option maxHeartbeats 1000000 in
theorem searchArchiveByMonths_miss_log (w : World) (scope : Scope) (slugValue : String) :
    ∀ (months : List MonthInfo) (att : List String),
      (Part008.searchArchiveByMonths w scope months slugValue att).1 = none →
      (Part008.searchArchiveByMonths w scope months slugValue att).2.2
        = expectedMonthKeys scope months att := by
  intro months
  induction months with
  | nil => intro att _; rfl
  | cons info rest ih =>
    intro att hmiss
    obtain ⟨iy, im⟩ := info
    rcases iy with _ | y
    · exact ih att hmiss
    · rcases im with _ | m
      · exact ih att hmiss
      · by_cases hatt : att.contains (Part008.monthKey scope.parent scope.child y m)
        · simp only [Part008.searchArchiveByMonths, expectedMonthKeys, if_pos hatt] at hmiss ⊢
          exact ih att hmiss
        · rcases hshard : w.archiveShard scope.parent scope.child y m with _ | items
          · rcases hrec : Part008.searchArchiveByMonths w scope rest slugValue
                (Part008.monthKey scope.parent scope.child y m :: att) with ⟨rr, ra, rl⟩
            simp only [Part008.searchArchiveByMonths, expectedMonthKeys, if_neg hatt,
              hshard, hrec] at hmiss ⊢
            have := ih (Part008.monthKey scope.parent scope.child y m :: att)
              (by rw [hrec]; exact hmiss)
            rw [hrec] at this
            simp only [] at this
            rw [this]
          · rcases hfind : findPostBySlug items slugValue with _ | p
            · rcases hrec : Part008.searchArchiveByMonths w scope rest slugValue
                  (Part008.monthKey scope.parent scope.child y m :: att) with ⟨rr, ra, rl⟩
              simp only [Part008.searchArchiveByMonths, expectedMonthKeys, if_neg hatt,
                hshard, hfind, hrec] at hmiss ⊢
              have := ih (Part008.monthKey scope.parent scope.child y m :: att)
                (by rw [hrec]; exact hmiss)
              rw [hrec] at this
              simp only [] at this
              rw [this]
            · simp only [Part008.searchArchiveByMonths, if_neg hatt, hshard, hfind] at hmiss
              exact Option.noConfusion hmiss


/-- C5 amended: the month list from the Summary is iterated in full, in
list order, with no 12-month cap — on a complete miss every not-yet
attempted month with year and month data is fetched — and the Manifest is
then consulted (walking its shard list from its last entry to its first),
also when a Summary month list existed. -/
theorem loadArchivePost_months_exhaustive (w : World) (slugValue : String) (scope : Scope)
    (att : List String)
    (hmiss : (Part008.searchArchiveByMonths w scope (Part008.summaryMonths w scope)
        slugValue att).1 = none) :
    (Part008.searchArchiveByMonths w scope (Part008.summaryMonths w scope) slugValue att).2.2
      = expectedMonthKeys scope (Part008.summaryMonths w scope) att
    ∧ Part008.loadArchivePost w slugValue scope att
      = ((Part008.searchArchiveViaManifest w slugValue
            (Part008.searchArchiveByMonths w scope (Part008.summaryMonths w scope)
              slugValue att).2.1).1,
         (Part008.searchArchiveViaManifest w slugValue
            (Part008.searchArchiveByMonths w scope (Part008.summaryMonths w scope)
              slugValue att).2.1).2.1,
         (Part008.searchArchiveByMonths w scope (Part008.summaryMonths w scope)
            slugValue att).2.2
           ++ (Part008.searchArchiveViaManifest w slugValue
              (Part008.searchArchiveByMonths w scope (Part008.summaryMonths w scope)
                slugValue att).2.1).2.2) := by
  constructor
  · exact searchArchiveByMonths_miss_log w scope slugValue _ att hmiss
  · unfold Part008.loadArchivePost
    by_cases hemp : (Part008.summaryMonths w scope).isEmpty
    · have hnil : Part008.summaryMonths w scope = [] := by
        cases hsm : Part008.summaryMonths w scope
        · rfl
        · rw [hsm] at hemp; simp at hemp
      rw [if_pos hemp, hnil]
      simp [Part008.searchArchiveByMonths]
    · rw [if_neg hemp]
      rcases hsearch : Part008.searchArchiveByMonths w scope
          (Part008.summaryMonths w scope) slugValue att with ⟨r1, a1, l1⟩
      rw [hsearch] at hmiss
      simp only at hmiss
      subst hmiss
      simp [hsearch]

/-- Witness for the amended C5: on the empty world (no summary entry) the
month search trivially misses, the schedule is empty and the probe reduces
to the manifest walk. -/
theorem loadArchivePost_months_exhaustive_witness :
    (Part008.searchArchiveByMonths emptyWorld ⟨"news", "index"⟩
        (Part008.summaryMonths emptyWorld ⟨"news", "index"⟩) "storm-post" []).2.2
      = expectedMonthKeys ⟨"news", "index"⟩
          (Part008.summaryMonths emptyWorld ⟨"news", "index"⟩) []
    ∧ Part008.loadArchivePost emptyWorld "storm-post" ⟨"news", "index"⟩ []
      = ((Part008.searchArchiveViaManifest emptyWorld "storm-post"
            (Part008.searchArchiveByMonths emptyWorld ⟨"news", "index"⟩
              (Part008.summaryMonths emptyWorld ⟨"news", "index"⟩) "storm-post" []).2.1).1,
         (Part008.searchArchiveViaManifest emptyWorld "storm-post"
            (Part008.searchArchiveByMonths emptyWorld ⟨"news", "index"⟩
              (Part008.summaryMonths emptyWorld ⟨"news", "index"⟩) "storm-post" []).2.1).2.1,
         (Part008.searchArchiveByMonths emptyWorld ⟨"news", "index"⟩
            (Part008.summaryMonths emptyWorld ⟨"news", "index"⟩) "storm-post" []).2.2
           ++ (Part008.searchArchiveViaManifest emptyWorld "storm-post"
              (Part008.searchArchiveByMonths emptyWorld ⟨"news", "index"⟩
                (Part008.summaryMonths emptyWorld ⟨"news", "index"⟩) "storm-post" []).2.1).2.2) :=
  loadArchivePost_months_exhaustive emptyWorld "storm-post" ⟨"news", "index"⟩ [] (by decide)

/-- Witness for C3: a concrete archive record keeps its body and its
non-empty fields; the hot record only fills the archive's empty title. -/
theorem mergeArchiveWithHot_policy_witness :
    (Part009.mergeArchiveWithHot { body := "archive body", canonical := "" }
        { body := "hot body", title := "Hot Title", canonical := "https://hot/c" } "s").body
      = "archive body"
    ∧ (Part009.mergeArchiveWithHot { body := "archive body", canonical := "" }
        { body := "hot body", title := "Hot Title", canonical := "https://hot/c" } "s").title
      = "Hot Title" :=
  ⟨((mergeArchiveWithHot_policy { body := "archive body", canonical := "" }
      { body := "hot body", title := "Hot Title", canonical := "https://hot/c" } "s").1).1
        (by decide),
   ((mergeArchiveWithHot_policy { body := "archive body", canonical := "" }
      { body := "hot body", title := "Hot Title", canonical := "https://hot/c" } "s").2.1).2
        (by decide)⟩


theorem padNumber_length_ge (n len : Nat) : len ≤ (padNumber n len).length := by
  have : (padNumber n len).length = (len - (toString n).length) + (toString n).length := by
    simp [padNumber, String.length_append]
  omega

theorem padNumber_ne_empty (n len : Nat) (h : 0 < len) : padNumber n len ≠ "" := by
  intro he
  have := padNumber_length_ge n len
  rw [he] at this
  simp at this
  omega

theorem jsOr_ne_empty (a b : String) (hb : b ≠ "") : jsOr a b ≠ "" := by
  unfold jsOr
  split
  · exact hb
  · assumption

theorem jsOr_jsOr (a b : String) : jsOr (jsOr a b) b = jsOr a b := by
  unfold jsOr
  split
  · simp
  · rfl

/-- The canonical-location formula exactly as the specification words it:
`origin + "/" + parent + "/" + child + "/" + year4 + "/" + month2 + "/" +
slug + "/"`, with `child` replaced by `index` when the item has no
subcategory. -/
def specCanonicalLocation (origin parent child : String) (year month : Nat)
    (slug : String) : String :=
  origin ++ "/" ++ parent ++ "/" ++ (if child ≠ "" ∧ child ≠ "index" then child else "index")
    ++ "/" ++ padNumber year 4 ++ "/" ++ padNumber month 2 ++ "/" ++ slug ++ "/"

/-- C4 amended: in the `part_008` derivation, a non-empty trimmed explicit
`canonical` field always wins; otherwise, for a context carrying a year and
a month, the derived location is exactly
`origin + "/" + parent + "/" + child + "/" + year4 + "/" + month2 + "/" +
slug + "/"` with `child` replaced by `index` when absent.  (The `part_009`
derivation omits the year/month segments — see the counterexample.) -/
theorem computeCanonicalUrl_formula (post : Post) (context : ArchiveContext) (y m : Nat) :
    (jsTrim post.canonical ≠ "" →
      Part008.computeCanonicalUrl post context = jsTrim post.canonical) ∧
    (jsTrim post.canonical = "" →
      context.year = some y → context.month = some m →
      jsTrim context.origin = context.origin → context.origin ≠ "" →
      stripTrailingSlashes context.origin = context.origin →
      stripLeadingSlashes (Part008.buildCanonicalPath context post.slug)
        = Part008.buildCanonicalPath context post.slug →
      slugify (jsOr context.slug post.slug) ≠ "" →
      Part008.computeCanonicalUrl post context
        = specCanonicalLocation context.origin (jsOr context.parent "index") context.child y m
            (slugify (jsOr context.slug post.slug))) := by
  constructor
  · intro h
    unfold Part008.computeCanonicalUrl
    rw [if_pos h]
  · intro h1 hy hm htrim hne hslash hpath hslug
    have hbuild : Part008.buildCanonicalPath context post.slug
        = jsOr context.parent "index" ++ "/"
          ++ (if context.child ≠ "" ∧ context.child ≠ "index" then context.child else "index")
          ++ "/" ++ padNumber y 4 ++ "/" ++ padNumber m 2 ++ "/"
          ++ slugify (jsOr context.slug post.slug) ++ "/" := by
      unfold Part008.buildCanonicalPath
      rw [hy, hm]
      simp only [jsOr_jsOr, if_pos (padNumber_ne_empty y 4 (by omega)),
        if_pos (padNumber_ne_empty m 2 (by omega)), if_pos hslug]
      simp [String.intercalate, String.intercalate.go, String.append_assoc]
    have hpathne : Part008.buildCanonicalPath context post.slug ≠ "" := by
      rw [hbuild]
      intro he
      have hl := congrArg String.length he
      have hone : ("/" : String).length = 1 := rfl
      have hzero : ("" : String).length = 0 := rfl
      simp only [String.length_append, hone, hzero] at hl
      omega
    unfold Part008.computeCanonicalUrl
    rw [if_neg (by simp [h1])]
    have hcond : context.origin ≠ "" ∧ jsTrim context.origin ≠ "" := by
      refine ⟨hne, ?_⟩
      rw [htrim]
      exact hne
    rw [if_pos hcond, htrim, if_neg hne, if_neg hpathne, hslash, hpath, hbuild]
    unfold specCanonicalLocation
    simp [String.append_assoc]


theorem computeCanonicalUrl_formula_witness :
    Part008.computeCanonicalUrl {}
        { origin := "https://archive.aventuroo.com", parent := "travel", child := "europe",
          year := some 2024, month := some 1, slug := "lisbon-guide" }
      = specCanonicalLocation "https://archive.aventuroo.com" (jsOr "travel" "index") "europe"
          2024 1 (slugify (jsOr "lisbon-guide" "")) :=
  (computeCanonicalUrl_formula {}
      { origin := "https://archive.aventuroo.com", parent := "travel", child := "europe",
        year := some 2024, month := some 1, slug := "lisbon-guide" } 2024 1).2
    (by decide) (by decide) (by decide) (by decide) (by decide) (by decide) (by decide) (by decide)

/-- C4 is false on the code as stated for every resolved item: the
`part_009` canonical derivation contains no year/month segments, so for an
item of archive bucket (2024, 01) the derived location differs from the
claimed formula. -/
theorem computeCanonicalUrl_part009_counterexample :
    Part009.computeCanonicalUrl {}
        { origin := "https://archive.aventuroo.com", parent := "travel", child := "europe",
          slug := "lisbon-guide" }
      = "https://archive.aventuroo.com/travel/europe/lisbon-guide/"
    ∧ "https://archive.aventuroo.com/travel/europe/lisbon-guide/"
        ≠ specCanonicalLocation "https://archive.aventuroo.com" "travel" "europe" 2024 1
            "lisbon-guide" :=
  ⟨by decide, by decide⟩

/-- The date half of the title+date identity key. -/
def dedupDateOf (post : Post) : String :=
  jsTrim (jsOr post.date (jsOr post.published_at
    (jsOr post.pubDate (jsOr post.published post.datetime))))

theorem titleDateKey_mem (p : Post) (htp : jsTrim p.title ≠ "") :
    ("title-date:" ++ jsTrim p.title ++ "|" ++ dedupDateOf p) ∈ DataLoader.deduperKeysFor p := by
  unfold DataLoader.deduperKeysFor dedupDateOf
  refine List.mem_append_right _ ?_
  rw [if_pos htp]
  exact List.mem_singleton.mpr rfl

/-- C7 amended: two ingested items that share a non-empty trimmed title
and the same date chain are treated as the SAME identity by the dedup
store — the second `add` is rejected — regardless of their `url`s, because
every derived key (the title+date key included) participates in the
collision check. -/
theorem deduperAdd_title_date_collision (seen : DataLoader.DeduperState) (p q : Post)
    (htp : jsTrim p.title ≠ "")
    (ht : jsTrim p.title = jsTrim q.title)
    (hd : dedupDateOf p = dedupDateOf q)
    (hacc : (DataLoader.deduperAdd seen p).1 = true) :
    (DataLoader.deduperAdd (DataLoader.deduperAdd seen p).2 q).1 = false := by
  have htq : jsTrim q.title ≠ "" := ht ▸ htp
  have hpmem := titleDateKey_mem p htp
  have hqmem := titleDateKey_mem q htq
  have hpne : ¬(DataLoader.deduperKeysFor p).isEmpty := by
    intro he
    rw [List.isEmpty_iff] at he
    rw [he] at hpmem
    exact List.not_mem_nil _ hpmem
  have hqne : ¬(DataLoader.deduperKeysFor q).isEmpty := by
    intro he
    rw [List.isEmpty_iff] at he
    rw [he] at hqmem
    exact List.not_mem_nil _ hqmem
  by_cases hany : (DataLoader.deduperKeysFor p).any (fun key => seen.contains key)
  · rw [DataLoader.deduperAdd, if_neg hpne, if_pos hany] at hacc
    exact absurd hacc (by simp)
  · have hstate : (DataLoader.deduperAdd seen p).2 = DataLoader.deduperKeysFor p ++ seen := by
      rw [DataLoader.deduperAdd, if_neg hpne, if_neg hany]
    rw [DataLoader.deduperAdd, hstate, if_neg hqne, if_pos ?hq]
    case hq =>
      refine List.any_eq_true.mpr ⟨"title-date:" ++ jsTrim q.title ++ "|" ++ dedupDateOf q,
        hqmem, ?_⟩
      have : ("title-date:" ++ jsTrim q.title ++ "|" ++ dedupDateOf q)
          ∈ DataLoader.deduperKeysFor p ++ seen := by
        refine List.mem_append_left _ ?_
        rw [← ht, ← hd]
        exact hpmem
      exact List.elem_iff.mpr this

def stormA : Post := { title := "Storm Warning", date := "2024-02-01", url := "https://news.example/a" }

def stormB : Post := { title := "Storm Warning", date := "2024-02-01", url := "https://news.example/b" }

/-- C7 is false on the code: two items sharing `title="Storm Warning"` and
`date="2024-02-01"` but carrying different `url`s are NOT both retained —
the second `add` returns `false` because the title+date key collides, even
though the fingerprint also includes the url. -/
theorem deduper_distinct_urls_counterexample :
    stormA.url ≠ stormB.url
    ∧ (DataLoader.deduperAdd [] stormA).1 = true
    ∧ (DataLoader.deduperAdd (DataLoader.deduperAdd [] stormA).2 stormB).1 = false :=
  ⟨by decide, by decide, by decide⟩

/-- Witness for the amended C7 at the two concrete storm-warning items. -/
theorem deduperAdd_title_date_collision_witness :
    (DataLoader.deduperAdd (DataLoader.deduperAdd [] stormA).2 stormB).1 = false :=
  deduperAdd_title_date_collision [] stormA stormB (by decide) (by decide) (by decide) (by decide)

theorem mem_dedupKeepFirst (x : String) : ∀ l, x ∈ CheckCritical.dedupKeepFirst l ↔ x ∈ l := by
  intro l
  induction l with
  | nil => simp [CheckCritical.dedupKeepFirst]
  | cons y rest ih =>
    simp only [CheckCritical.dedupKeepFirst, List.mem_cons, List.mem_filter, ih]
    by_cases hxy : x = y <;> simp [hxy]

/-- C8: if the hot manifest flags a shard as critical (or global) and its
`index.json` file is missing, not a regular file, or zero-sized, the
verification run exits with code 1 after collecting it; when every
verified critical index (the manifest-derived ones and the manual
`data/index.json`) exists as a non-empty regular file, the run exits 0. -/
theorem checkCritical_exit (rootDir : String) (shards : List CheckCritical.CShard)
    (stat : String → Option CheckCritical.FileStat) :
    (∀ shard, shard ∈ shards → (shard.is_global = true ∨ shard.critical = true) →
      CheckCritical.normalizeRelative shard.path ≠ "" →
      strEndsWith (CheckCritical.normalizeRelative shard.path) "index.json" = true →
      (stat (CheckCritical.joinPath rootDir (CheckCritical.joinPath "data/hot"
          (CheckCritical.normalizeRelative shard.path))) = none
        ∨ (∃ st, stat (CheckCritical.joinPath rootDir (CheckCritical.joinPath "data/hot"
            (CheckCritical.normalizeRelative shard.path))) = some st
            ∧ (st.isFile = false ∨ st.size = 0))) →
      CheckCritical.runCheck rootDir (some { shards := some shards }) stat = 1) ∧
    ((∀ path, path ∈ CheckCritical.criticalPaths rootDir (some { shards := some shards }) →
        ∃ st, stat path = some st ∧ st.isFile = true ∧ 0 < st.size) →
      CheckCritical.runCheck rootDir (some { shards := some shards }) stat = 0) := by
  constructor
  · intro shard hmem hflag hnorm hends hbad
    set pth := CheckCritical.joinPath rootDir (CheckCritical.joinPath "data/hot"
      (CheckCritical.normalizeRelative shard.path)) with hpth
    have hcollect : pth ∈ CheckCritical.collectHotCriticalIndexes rootDir
        (some { shards := some shards }) := by
      unfold CheckCritical.collectHotCriticalIndexes
      rw [mem_dedupKeepFirst]
      refine List.mem_filterMap.mpr ⟨shard, hmem, ?_⟩
      have hnotskip : ¬(¬shard.is_global = true ∧ ¬shard.critical = true) := by
        rcases hflag with hf | hf
        · intro hcontra; exact hcontra.1 hf
        · intro hcontra; exact hcontra.2 hf
      rw [if_neg hnotskip, if_neg (by push_neg; exact ⟨hnorm, by simp [hends]⟩)]
    have hpaths : pth ∈ CheckCritical.criticalPaths rootDir (some { shards := some shards }) := by
      unfold CheckCritical.criticalPaths
      rw [mem_dedupKeepFirst]
      exact List.mem_append_right _ hcollect
    unfold CheckCritical.runCheck
    have hnonempty : ¬(CheckCritical.criticalPaths rootDir
        (some { shards := some shards })).isEmpty := by
      intro he
      rw [List.isEmpty_iff] at he
      rw [he] at hpaths
      exact List.not_mem_nil _ hpaths
    rw [if_neg hnonempty]
    unfold CheckCritical.verifyIndexesExit
    rcases hbad with hnone | ⟨st, hsome, hbadst⟩
    · have : pth ∈ (CheckCritical.criticalPaths rootDir
          (some { shards := some shards })).filter (fun p =>
            match stat p with
            | none => true
            | some st => ¬st.isFile) := by
        refine List.mem_filter.mpr ⟨hpaths, ?_⟩
        rw [hnone]
      rw [if_pos (Or.inl (by
        intro he
        rw [List.isEmpty_iff] at he
        rw [he] at this
        exact List.not_mem_nil _ this))]
    · rcases hbadst with hfile | hsize
      · have : pth ∈ (CheckCritical.criticalPaths rootDir
            (some { shards := some shards })).filter (fun p =>
              match stat p with
              | none => true
              | some st => ¬st.isFile) := by
          refine List.mem_filter.mpr ⟨hpaths, ?_⟩
          rw [hsome]
          simp [hfile]
        rw [if_pos (Or.inl (by
          intro he
          rw [List.isEmpty_iff] at he
          rw [he] at this
          exact List.not_mem_nil _ this))]
      · by_cases hfile2 : st.isFile = true
        · have : pth ∈ (CheckCritical.criticalPaths rootDir
              (some { shards := some shards })).filter (fun p =>
                match stat p with
                | none => false
                | some st => st.isFile ∧ st.size = 0) := by
            refine List.mem_filter.mpr ⟨hpaths, ?_⟩
            rw [hsome]
            simp [hfile2, hsize]
          rw [if_pos (Or.inr (by
            intro he
            rw [List.isEmpty_iff] at he
            rw [he] at this
            exact List.not_mem_nil _ this))]
        · have : pth ∈ (CheckCritical.criticalPaths rootDir
              (some { shards := some shards })).filter (fun p =>
                match stat p with
                | none => true
                | some st => ¬st.isFile) := by
            refine List.mem_filter.mpr ⟨hpaths, ?_⟩
            rw [hsome]
            simp [hfile2]
          rw [if_pos (Or.inl (by
            intro he
            rw [List.isEmpty_iff] at he
            rw [he] at this
            exact List.not_mem_nil _ this))]
  · intro hgood
    unfold CheckCritical.runCheck
    by_cases he : (CheckCritical.criticalPaths rootDir (some { shards := some shards })).isEmpty
    · rw [if_pos he]
    · rw [if_neg he]
      unfold CheckCritical.verifyIndexesExit
      have hmissing : (CheckCritical.criticalPaths rootDir
          (some { shards := some shards })).filter (fun p =>
            match stat p with
            | none => true
            | some st => ¬st.isFile) = [] := by
        rw [List.filter_eq_nil_iff]
        intro p hp
        rcases hgood p hp with ⟨st, hsome, hfile, _⟩
        rw [hsome]
        simp [hfile]
      have hempty : (CheckCritical.criticalPaths rootDir
          (some { shards := some shards })).filter (fun p =>
            match stat p with
            | none => false
            | some st => st.isFile ∧ st.size = 0) = [] := by
        rw [List.filter_eq_nil_iff]
        intro p hp
        rcases hgood p hp with ⟨st, hsome, hfile, hsize⟩
        rw [hsome]
        simp [hfile]
        omega
      rw [if_neg (by
        rw [hmissing, hempty]
        simp)]

/-- A filesystem on which every path is a non-empty regular file. -/
def allGoodStat : String → Option CheckCritical.FileStat :=
  fun _ => some { isFile := true, size := 5 }

/-- Witness for C8: one global-flagged shard with a healthy filesystem
yields exit code 0. -/
theorem checkCritical_exit_witness :
    CheckCritical.runCheck ""
        (some { shards := some [{ is_global := true, path := "travel/index.json" }] })
        allGoodStat = 0 :=
  (checkCritical_exit "" [{ is_global := true, path := "travel/index.json" }] allGoodStat).2
    (fun _ _ => ⟨{ isFile := true, size := 5 }, rfl, rfl, by decide⟩)

theorem computePerPageArchive_pos (archiveSummary : Option Summary) :
    0 < Category.computePerPageArchive archiveSummary := by
  cases archiveSummary with
  | none => simp [Category.computePerPageArchive]
  | some s =>
    cases hp : s.per_page with
    | none => simp [Category.computePerPageArchive, hp]
    | some p =>
      simp only [Category.computePerPageArchive, hp]
      by_cases h : p > 0
      · rw [if_pos h]; omega
      · rw [if_neg h]; omega

theorem computePerPage_pos (hotSummary archiveSummary : Option Summary) :
    0 < Category.computePerPage hotSummary archiveSummary := by
  cases hotSummary with
  | none => simpa [Category.computePerPage] using computePerPageArchive_pos archiveSummary
  | some s =>
    cases hp : s.per_page with
    | none =>
      simpa [Category.computePerPage, hp] using computePerPageArchive_pos archiveSummary
    | some p =>
      simp only [Category.computePerPage, hp]
      by_cases h : p > 0
      · rw [if_pos h]; omega
      · rw [if_neg h]; exact computePerPageArchive_pos archiveSummary

/-- The positive `per_page` a summary offers, if any. -/
def perPageOf (s : Option Summary) : Option Int :=
  match s with
  | none => none
  | some ss =>
    match ss.per_page with
    | none => none
    | some p => if 0 < p then some p else none

/-- The per-page selection rule as the claim words it: the hot summary's
`per_page` when it is a positive number, else the archive summary's, else
12. -/
def specPerPage (hotSummary archiveSummary : Option Summary) : Int :=
  match perPageOf hotSummary with
  | some p => p
  | none =>
    match perPageOf archiveSummary with
    | some p => p
    | none => 12

theorem computePerPage_spec (hotSummary archiveSummary : Option Summary) :
    Category.computePerPage hotSummary archiveSummary
      = specPerPage hotSummary archiveSummary := by
  have harch : Category.computePerPageArchive archiveSummary
      = (match perPageOf archiveSummary with
         | some p => p
         | none => 12) := by
    cases archiveSummary with
    | none => rfl
    | some s =>
      cases hp : s.per_page with
      | none => simp [Category.computePerPageArchive, perPageOf, hp]
      | some p =>
        by_cases h : 0 < p
        · simp [Category.computePerPageArchive, perPageOf, hp, if_pos h]
        · simp [Category.computePerPageArchive, perPageOf, hp, if_neg h,
            show ¬(p > 0) from h]
  cases hotSummary with
  | none => simpa [Category.computePerPage, specPerPage, perPageOf] using harch
  | some s =>
    cases hp : s.per_page with
    | none =>
      simpa [Category.computePerPage, specPerPage, perPageOf, hp] using harch
    | some p =>
      by_cases h : 0 < p
      · simp [Category.computePerPage, specPerPage, perPageOf, hp, if_pos h]
      · simpa [Category.computePerPage, specPerPage, perPageOf, hp, if_neg h,
          show ¬(p > 0) from h] using harch

/-- C9: both category dataset builders produce `totalPages =
ceil(totalItems / perPage)`, where `perPage` comes from the hot summary
when its `per_page` is positive, else from the archive summary, else
defaults to 12 (the legacy dataset always uses 12). -/
theorem loadHotCategoryDataset_pages
    (archiveShard : String → String → Nat → Nat → Option (List Post))
    (lookup : String → Option Scope) (hotSummary archiveSummary : Option Summary)
    (catSlug : String) (hotPosts allPosts : List Post) (pageParam : Option Int) :
    ((Category.loadHotCategoryDataset archiveShard lookup hotSummary archiveSummary catSlug
        hotPosts pageParam).totalPages
      = Category.mathCeilDiv
          (Category.loadHotCategoryDataset archiveShard lookup hotSummary archiveSummary catSlug
            hotPosts pageParam).totalItems
          (Category.loadHotCategoryDataset archiveShard lookup hotSummary archiveSummary catSlug
            hotPosts pageParam).perPage)
    ∧ (Category.loadHotCategoryDataset archiveShard lookup hotSummary archiveSummary catSlug
        hotPosts pageParam).perPage = Category.computePerPage hotSummary archiveSummary
    ∧ Category.computePerPage hotSummary archiveSummary = specPerPage hotSummary archiveSummary
    ∧ (Category.loadLegacyDataset allPosts catSlug pageParam).totalPages
        = Category.mathCeilDiv (Category.loadLegacyDataset allPosts catSlug pageParam).totalItems
            (Category.loadLegacyDataset allPosts catSlug pageParam).perPage
    ∧ (Category.loadLegacyDataset allPosts catSlug pageParam).perPage = 12 := by
  have hpos := computePerPage_pos hotSummary archiveSummary
  have hper : ¬(Category.computePerPage hotSummary archiveSummary ≤ 0) := by omega
  refine ⟨?_, ?_, computePerPage_spec hotSummary archiveSummary, ?_, ?_⟩
  · simp only [Category.loadHotCategoryDataset, if_neg hper]
    split_ifs <;> rfl
  · simp only [Category.loadHotCategoryDataset, if_neg hper]
  · have h12 : (12 : Int) > 0 := by omega
    simp only [Category.loadLegacyDataset, if_pos h12]
  · simp only [Category.loadLegacyDataset]


def indexShardPost : Post :=
  { slug := "hidden-post", title := "Hidden", category_slug := "travel/index" }

def hotIndexFallbackWorld : World :=
  { hotShard := fun parent child =>
      if parent = "travel" ∧ child = "europe" then some []
      else if parent = "travel" ∧ child = "index" then some [indexShardPost]
      else none,
    archiveShard := fun _ _ _ _ => none,
    archiveSummary := none, archiveManifest := none,
    hotManifest := some { shards := some [{ parent := "travel", child := "index" }] },
    legacyPosts := none }


/-- C6 is false on the code for the cited `part_008` resolver: a lookup
scoped to `(travel, europe)` (not `index/index`) that misses the exact hot
shard silently refetches the manifest-listed `(travel, index)` hot shard
via `searchHotViaManifest` and returns a post from it whose child slug is
not `europe` — the silent `child = index` retry the claim rules out. -/
theorem loadHotPost_index_retry_counterexample :
    Part008.searchHotShard hotIndexFallbackWorld ⟨"travel", "europe"⟩ "hidden-post" = none
    ∧ (Part008.loadHotPost hotIndexFallbackWorld "hidden-post" ⟨"travel", "europe"⟩).map
        (fun r => (r.post, r.scope))
      = some (indexShardPost, some ⟨"travel", "index"⟩)
    ∧ getPostChildSlug indexShardPost ≠ "europe" :=
  ⟨by decide, by decide, by decide⟩

/-- C6 amended: only the DIRECT hot probe is exact.  `fetchCategoryIndex`
with a subcategory present issues exactly one fetch, at the exact
`<slug>/<subcategory>` shard path, and surfaces a miss unchanged with no
alias or parent-level fallback; `searchHotShard` serves a hit only for the
requested scope.  But `loadHotPost` (`part_008`) does not keep subcategory
scoping exact end-to-end: a miss in the exact shard falls back to the
manifest sweep `searchHotViaManifest`, which refetches every
manifest-listed hot shard — `child = index` shards included — filtering
each only by that shard's own scope, not by the requested one. -/
theorem hotProbe_exact_direct_fallback_sweep {α : Type} (fetch : String → Option α)
    (aliasConfig : Option DataLoader.AliasConfig) (state : DataLoader.CatState)
    (w : World) (scope : Scope) (slugValue : String) :
    (state.subcategory ≠ "" → state.slug ≠ "" →
      DataLoader.fetchCategoryIndex fetch aliasConfig state
        = (fetch ("/data/hot/" ++ state.slug ++ ("/" ++ state.subcategory) ++ "/index.json"),
           ["/data/hot/" ++ state.slug ++ ("/" ++ state.subcategory) ++ "/index.json"])) ∧
    (∀ r, Part008.searchHotShard w scope slugValue = some r → r.scope = some scope) ∧
    (Part008.searchHotShard w scope slugValue = none →
      Part008.loadHotPost w slugValue scope = Part008.searchHotViaManifest w slugValue) := by
  refine ⟨?_, ?_, ?_⟩
  · intro hsub hslug
    unfold DataLoader.fetchCategoryIndex
    rw [if_neg hslug]
    simp only [if_pos hsub]
    cases fetch ("/data/hot/" ++ state.slug ++ ("/" ++ state.subcategory) ++ "/index.json") with
    | none => simp [if_pos hsub]
    | some payload => rfl
  · intro r hr
    cases hh : w.hotShard scope.parent scope.child with
    | none => simp [Part008.searchHotShard, hh] at hr
    | some items =>
      cases hf : findPostBySlug (filterPostsByScope items scope) slugValue with
      | none => simp [Part008.searchHotShard, hh, hf] at hr
      | some post =>
        simp only [Part008.searchHotShard, hh, hf, Option.some.injEq] at hr
        rw [← hr]
  · intro hmiss
    simp [Part008.loadHotPost, hmiss]

/-- Witness for the amended C6: on the concrete fallback world, the exact
shard misses (the hypothesis) and `loadHotPost` reduces to the manifest
sweep. -/
theorem hotProbe_exact_direct_fallback_sweep_witness :
    Part008.loadHotPost hotIndexFallbackWorld "hidden-post" ⟨"travel", "europe"⟩
      = Part008.searchHotViaManifest hotIndexFallbackWorld "hidden-post" :=
  (hotProbe_exact_direct_fallback_sweep (α := Unit) (fun _ => none) none
      { slug := "travel", subcategory := "europe" } hotIndexFallbackWorld
      ⟨"travel", "europe"⟩ "hidden-post").2.2 (by decide)

end Aventuroo
